import Mathlib

/-!
# Bond STL container adapter (`bond/core/stl_containers.h`)

A shallow embedding of the container interface that Bond lays over the STL
container classes, in two layers.

* The *type level*: C++ types are terms of `CppType`, and every trait of the
  header (`is_string`, `is_list_container`, `use_container_allocator_for_elements`,
  ...) is a function on those terms.  A trait whose instantiation is ill-formed
  (two partial specialisations apply and neither is more specialised) evaluates
  to `none`.
* The *value level*: a sequence is its allocator together with the list of its
  elements, a set or a map is its allocator together with the list of its
  entries in iteration order, and every function of the header is a function on
  those.
-/

namespace bond

/-! ## Type level -/

/-- C++ types that the traits of the header inspect.  Template arguments are
types themselves, so `basic_string`, `list`, `vector`, `set` and `map` carry
every argument of the corresponding STL template.  `user_allocator family t`
is the instance at `t` of a user allocator template, `record id schema` is a
user class without a nested `allocator_type`, and `record_alloc id schema a` is
a user class whose nested `allocator_type` is `a`; `schema` tells whether the
class has a Bond schema. -/
inductive CppType where
  | char : CppType
  | wchar_t : CppType
  | bool : CppType
  | int : CppType
  | const (t : CppType) : CppType
  | std_allocator (t : CppType) : CppType
  | user_allocator (family : Nat) (t : CppType) : CppType
  | std_less (t : CppType) : CppType
  | char_traits (t : CppType) : CppType
  | record (id : Nat) (schema : Bool) : CppType
  | record_alloc (id : Nat) (schema : Bool) (a : CppType) : CppType
  | pair (first second : CppType) : CppType
  | basic_string (c tr a : CppType) : CppType
  | list (t a : CppType) : CppType
  | vector (t a : CppType) : CppType
  | set (t c a : CppType) : CppType
  | map (k t c a : CppType) : CppType
  deriving DecidableEq, Repr

/-- Build configuration: whether the macro `BOND_NO_CXX11_ALLOCATOR` is
defined. -/
structure Config where
  BOND_NO_CXX11_ALLOCATOR : Bool
  deriving DecidableEq, Repr

/-- The trait `remove_const<T>::type`. -/
def remove_const : CppType → CppType
  | .const t => t
  | t => t

/-- The trait `is_string<T>`: the specialisation for
`std::basic_string<char, T, A>` is `true_type`.
Modelled from the spec: the primary template lives in a header that is not in
the source tree; a classification predicate is false for a type that has no
specialisation. -/
def is_string : CppType → Bool
  | .basic_string .char _ _ => true
  | _ => false

/-- The trait `is_wstring<T>`: the specialisation for
`std::basic_string<wchar_t, T, A>` is `true_type`.
Modelled from the spec: the primary template (not in the source tree) is
false. -/
def is_wstring : CppType → Bool
  | .basic_string .wchar_t _ _ => true
  | _ => false

/-- The trait `is_string_type<T>`: `is_string<U>::value || is_wstring<U>::value`
for `U = remove_const<T>::type`. -/
def is_string_type (T : CppType) : Bool :=
  let U := remove_const T
  is_string U || is_wstring U

/-- The trait `is_list_container<T>`: `true_type` for `std::list<T, A>` and for
`std::vector<T, A>`.
Modelled from the spec: the primary template (not in the source tree) is
false. -/
def is_list_container : CppType → Bool
  | .list _ _ => true
  | .vector _ _ => true
  | _ => false

/-- The trait `require_modify_element<T>`: `true_type` for
`std::vector<bool, A>`.
Modelled from the spec: the primary template (not in the source tree) is
false. -/
def require_modify_element : CppType → Bool
  | .vector .bool _ => true
  | _ => false

/-- The trait `is_set_container<T>`: `true_type` for `std::set<T, C, A>`.
Modelled from the spec: the primary template (not in the source tree) is
false. -/
def is_set_container : CppType → Bool
  | .set _ _ _ => true
  | _ => false

/-- The trait `is_map_container<T>`: `true_type` for `std::map<K, T, C, A>`.
Modelled from the spec: the primary template (not in the source tree) is
false. -/
def is_map_container : CppType → Bool
  | .map _ _ _ _ => true
  | _ => false

/-- The nested typedef `T::value_type` of the STL containers; `none` when the
type has no such member. -/
def value_type : CppType → Option CppType
  | .basic_string c _ _ => some c
  | .list t _ => some t
  | .vector t _ => some t
  | .set t _ _ => some t
  | .map k t _ _ => some (.pair (.const k) t)
  | .std_allocator t => some t
  | .user_allocator _ t => some t
  | _ => none

/-- The trait `element_type<T>::type`: specialised for `std::map<K, T, C, A>`
to `std::pair<K, T>`, because `map::value_type` is `pair<const K, T>`.
Modelled from the spec: the primary template (not in the source tree) is the
stored value type `T::value_type`. -/
def element_type : CppType → Option CppType
  | .map k t _ _ => some (.pair k t)
  | T => value_type T

/-- The nested typedef `T::first_type` of `std::pair`. -/
def first_type : CppType → Option CppType
  | .pair a _ => some a
  | _ => none

/-- The nested typedef `T::second_type` of `std::pair`. -/
def second_type : CppType → Option CppType
  | .pair _ b => some b
  | _ => none

/-- The nested typedef `T::allocator_type`; `none` when the type has no such
member. -/
def allocator_type : CppType → Option CppType
  | .basic_string _ _ a => some a
  | .list _ a => some a
  | .vector _ a => some a
  | .set _ _ a => some a
  | .map _ _ _ a => some a
  | .record_alloc _ _ a => some a
  | _ => none

/-- The nested typedef `T::key_compare`; `none` when the type has no such
member. -/
def key_compare : CppType → Option CppType
  | .set _ c _ => some c
  | .map _ _ c _ => some c
  | _ => none

/-- The trait `is_class<T>`. -/
def is_class : CppType → Bool
  | .char => false
  | .wchar_t => false
  | .bool => false
  | .int => false
  | .const t => is_class t
  | _ => true

/-- The member template `A::rebind<int>::other` of an allocator, which is also
what `detail::rebind_allocator<A, int>::type` names: the same allocator
template at `int`.  It is `none` for a type that is not an allocator. -/
def rebind_int : CppType → Option CppType
  | .std_allocator _ => some (.std_allocator .int)
  | .user_allocator f _ => some (.user_allocator f .int)
  | _ => none

/-- Modelled from the spec: the trait `detail::is_default_allocator<A>` (not in
the source tree) tells whether `A` is the platform default allocator
`std::allocator<T>`. -/
def is_default_allocator : CppType → Bool
  | .std_allocator _ => true
  | _ => false

/-- Modelled from the spec: the trait `has_schema<T>` (not in the source tree)
tells whether `T` is a schema-bearing type, a user-defined record. -/
def has_schema : CppType → Bool
  | .record _ s => s
  | .record_alloc _ s _ => s
  | _ => false

/-- The trait `is_convertible<From, To>` between allocator types: an allocator
converts to every instance of its own template (the rebinding constructor that
the allocator requirements ask for), and to nothing else. -/
def is_convertible_allocator (src dst : CppType) : Bool :=
  match rebind_int src, rebind_int dst with
  | some a, some b => decide (a = b)
  | _, _ => false

/-- The standard trait `std::uses_allocator<F, A>`: `F` has a nested
`allocator_type` and `A` converts to it. -/
def uses_allocator (F A : CppType) : Bool :=
  match allocator_type F with
  | some fa => is_convertible_allocator A fa
  | none => false

/-- The trait `has_key_compare<T>`: the specialisation, enabled when
`T::key_compare` names a class, is `true_type`; the primary template is
`false_type`. -/
def has_key_compare (T : CppType) : Bool :=
  match key_compare T with
  | some c => is_class c
  | none => false

/-- The condition of the first `BOND_NO_CXX11_ALLOCATOR` specialisation of the
allocator traits: `is_same<A::rebind<int>::other,
F::allocator_type::rebind<int>::other>`, false when one of the nested names
does not exist (the specialisation is then discarded). -/
def rebind_compatible (A F : CppType) : Bool :=
  match rebind_int A, (allocator_type F).bind rebind_int with
  | some x, some y => decide (x = y)
  | _, _ => false

/-- The selection that both `BOND_NO_CXX11_ALLOCATOR` allocator traits make for
container allocator `A` and field type `F`.  The first specialisation applies
when the rebound allocators are the same type, and its value is
`!is_default_allocator<A>`; the second applies when `F` has a schema and `A` is
not the default allocator, and is `true_type`; without either the primary
template `false_type` is used.  When both apply the instantiation is ambiguous
and the program is ill-formed: `none`. -/
def legacy_allocator_trait (A F : CppType) : Option Bool :=
  let first := rebind_compatible A F
  let second := has_schema F && !is_default_allocator A
  match first, second with
  | true, true => none
  | true, false => some (!is_default_allocator A)
  | false, true => some true
  | false, false => some false

/-- The trait `use_container_allocator_for_elements<T>`.  The primary template
is `false_type`.  With `BOND_NO_CXX11_ALLOCATOR` the two specialisations of
`legacy_allocator_trait` are declared for `T::allocator_type` and
`element_type<T>::type`; without it the single specialisation, enabled by
`std::uses_allocator<element_type<T>::type, T::allocator_type>`, is
`true_type`.  A specialisation that names a missing member is discarded. -/
def use_container_allocator_for_elements (cfg : Config) (T : CppType) : Option Bool :=
  match allocator_type T, element_type T with
  | some A, some F =>
    if cfg.BOND_NO_CXX11_ALLOCATOR then legacy_allocator_trait A F
    else some (uses_allocator F A)
  | _, _ => some false

/-- The trait `use_map_allocator_for_keys<T>`.  The primary template is
`false_type`; the only specialisation, enabled when
`detail::rebind_allocator<T::allocator_type, int>::type` is the same type as
`detail::rebind_allocator<element_type<T>::type::first_type::allocator_type,
int>::type`, has the value `!detail::is_default_allocator<T::allocator_type>`. -/
def use_map_allocator_for_keys (T : CppType) : Bool :=
  match allocator_type T, (element_type T).bind first_type with
  | some A, some K => if rebind_compatible A K then !is_default_allocator A else false
  | _, _ => false

/-- The trait `use_map_allocator_for_values<T>`: as
`use_container_allocator_for_elements`, for
`element_type<T>::type::second_type`. -/
def use_map_allocator_for_values (cfg : Config) (T : CppType) : Option Bool :=
  match allocator_type T, (element_type T).bind second_type with
  | some A, some F =>
    if cfg.BOND_NO_CXX11_ALLOCATOR then legacy_allocator_trait A F
    else some (uses_allocator F A)
  | _, _ => some false

/-! ## Value level -/

/-- The value of `static_cast<uint32_t>(n)` for a `size_t` count `n`. -/
def to_uint32 (n : Nat) : Nat := n % 2 ^ 32

/-- What the generic functions of the header ask of a container type: the
member functions `size()` and `get_allocator()`. -/
class StlContainer (C : Type) (A : outParam Type) where
  size : C → Nat
  get_allocator : C → A

/-- A `std::list<E, A>` or `std::vector<E, A>`: its allocator and its elements
in order. -/
structure Sequence (A E : Type) where
  allocator : A
  elems : List E
  deriving DecidableEq, Repr

/-- The member function `clear()` of a sequence. -/
def Sequence.clear {A E : Type} (s : Sequence A E) : Sequence A E :=
  { s with elems := [] }

/-- The member function `resize(n, val)` of a sequence: the first `n` elements
are kept, and copies of `val` are appended up to length `n`. -/
def Sequence.resize {A E : Type} (s : Sequence A E) (n : Nat) (val : E) : Sequence A E :=
  { s with elems := s.elems.take n ++ List.replicate (n - s.elems.length) val }

instance {A E : Type} : StlContainer (Sequence A E) A where
  size s := s.elems.length
  get_allocator s := s.allocator

/-- A `std::set<T, C, A>`: its allocator and its items in iteration order.  The
comparator `C` is the strict order of the `LinearOrder` instance on `T`. -/
structure StdSet (T A : Type) where
  allocator : A
  items : List T
  deriving DecidableEq, Repr

/-- The representation invariant of `std::set`: the items are strictly
ascending. -/
def StdSet.WF {T A : Type} [LinearOrder T] (s : StdSet T A) : Prop :=
  s.items.Pairwise (fun a b => a < b)

instance {T A : Type} [LinearOrder T] (s : StdSet T A) : Decidable s.WF := by
  unfold StdSet.WF; infer_instance

/-- Insertion of `x` into an ascending list at its place in the order; the list
is returned as it is when an element equal to `x` is met there. -/
def ordered_insert {T : Type} [LinearOrder T] (x : T) : List T → List T
  | [] => [x]
  | y :: rest =>
    if x < y then x :: y :: rest
    else if x = y then y :: rest
    else y :: ordered_insert x rest

/-- The member function `insert(item)` of `std::set`. -/
def StdSet.insert {T A : Type} [LinearOrder T] (s : StdSet T A) (item : T) : StdSet T A :=
  { s with items := ordered_insert item s.items }

instance {T A : Type} : StlContainer (StdSet T A) A where
  size s := s.items.length
  get_allocator s := s.allocator

/-- A `std::map<K, V, C, A>`: its allocator and its entries in iteration order.
The comparator `C` is the strict order of the `LinearOrder` instance on `K`. -/
structure StdMap (K V A : Type) where
  allocator : A
  entries : List (K × V)
  deriving DecidableEq, Repr

/-- The representation invariant of `std::map`: the keys are strictly
ascending. -/
def StdMap.WF {K V A : Type} [LinearOrder K] (m : StdMap K V A) : Prop :=
  m.entries.Pairwise (fun a b => a.1 < b.1)

instance {K V A : Type} [LinearOrder K] (m : StdMap K V A) : Decidable m.WF := by
  unfold StdMap.WF; infer_instance

/-- The member function `find(key)` of `std::map`: the entry the returned
iterator points at, `none` for `end()`. -/
def StdMap.find {K V A : Type} [LinearOrder K] (m : StdMap K V A) (key : K) : Option (K × V) :=
  m.entries.find? (fun e => decide (e.1 = key))

/-- Insertion of the entry `kv` into a list of entries with ascending keys.
The result is the new list, the entry that the returned iterator points at, and
whether an insertion took place: an entry with an equal key prevents it. -/
def entries_insert {K V : Type} [LinearOrder K] (kv : K × V) :
    List (K × V) → List (K × V) × (K × V) × Bool
  | [] => ([kv], kv, true)
  | e :: rest =>
    if kv.1 < e.1 then (kv :: e :: rest, kv, true)
    else if kv.1 = e.1 then (e :: rest, e, false)
    else
      let r := entries_insert kv rest
      (e :: r.1, r.2.1, r.2.2)

/-- The member function `insert(value)` of `std::map`: the map afterwards and
the pair `(iterator, bool)` it returns. -/
def StdMap.insert {K V A : Type} [LinearOrder K] (m : StdMap K V A) (kv : K × V) :
    StdMap K V A × (K × V) × Bool :=
  let r := entries_insert kv m.entries
  ({ m with entries := r.1 }, r.2.1, r.2.2)

instance {K V A : Type} : StlContainer (StdMap K V A) A where
  size m := m.entries.length
  get_allocator m := m.allocator

/-- The function `container_size`: `static_cast<uint32_t>(list.size())`. -/
def container_size {C A : Type} [StlContainer C A] (list : C) : Nat :=
  to_uint32 (StlContainer.size list)

/-- The constructors of a field type `E` that the `make_` functions call, for
allocators of type `A`: `E()`, `E(alloc)` and `E(E::key_compare(), alloc)`. -/
structure Constructors (A E : Type) where
  default_ctor : E
  allocator_ctor : A → E
  compare_allocator_ctor : A → E

/-- The function `make_element` for a container of type `T`.  The first
overload is enabled when `use_container_allocator_for_elements<T>` is false,
the second when it is true and the element type has no `key_compare`, the third
when it is true and the element type has one.  `none` when the trait is
ill-formed. -/
def make_element {C A E : Type} [StlContainer C A] (cfg : Config) (T : CppType)
    (ctors : Constructors A E) (container : C) : Option E :=
  match use_container_allocator_for_elements cfg T, (element_type T).map has_key_compare with
  | some false, _ => some ctors.default_ctor
  | some true, some false => some (ctors.allocator_ctor (StlContainer.get_allocator container))
  | some true, some true =>
    some (ctors.compare_allocator_ctor (StlContainer.get_allocator container))
  | _, _ => none

/-- The function `resize_list` for a sequence of type `T` and a `uint32_t`
size.  The overload enabled when `use_container_allocator_for_elements<T>` is
false resizes the list; the overload enabled when it is true clears the list
first. -/
def resize_list {A E : Type} (cfg : Config) (T : CppType) (ctors : Constructors A E)
    (list : Sequence A E) (size : Nat) : Option (Sequence A E) :=
  match use_container_allocator_for_elements cfg T with
  | some false =>
    (make_element cfg T ctors list).map fun e => list.resize size e
  | some true =>
    let list := list.clear
    (make_element cfg T ctors list).map fun e => list.resize size e
  | none => none

/-- The function `set_insert`. -/
def set_insert {T A : Type} [LinearOrder T] (set : StdSet T A) (item : T) : StdSet T A :=
  set.insert item

/-- The function `make_value` for a map of type `T`: as `make_element`, with
`use_map_allocator_for_values<T>` and the mapped type
`element_type<T>::type::second_type`. -/
def make_value {C A V : Type} [StlContainer C A] (cfg : Config) (T : CppType)
    (ctors : Constructors A V) (map : C) : Option V :=
  match use_map_allocator_for_values cfg T,
      ((element_type T).bind second_type).map has_key_compare with
  | some false, _ => some ctors.default_ctor
  | some true, some false => some (ctors.allocator_ctor (StlContainer.get_allocator map))
  | some true, some true => some (ctors.compare_allocator_ctor (StlContainer.get_allocator map))
  | _, _ => none

/-- The error that `ElementNotFoundException` signals. -/
inductive Exception (K : Type) where
  | ElementNotFound (key : K) : Exception K
  deriving DecidableEq, Repr

/-- Modelled from the spec: the function `ElementNotFoundException(key)`, which
the header only declares, never returns: it raises `ElementNotFound(key)`. -/
def ElementNotFoundException {K R : Type} (key : K) : Except (Exception K) R :=
  .error (.ElementNotFound key)

/-- The mutable overload of `mapped_at`:
`map.insert(value_type(key, make_value(map))).first->second`.  The result is
the mapped value that the returned reference designates, and the map
afterwards. -/
def mapped_at {K V A : Type} [LinearOrder K] (cfg : Config) (T : CppType)
    (ctors : Constructors A V) (map : StdMap K V A) (key : K) : Option (V × StdMap K V A) :=
  (make_value cfg T ctors map).map fun v =>
    let r := map.insert (key, v)
    (r.2.1.2, r.1)

/-- The read-only overload of `mapped_at`: `find`, then
`ElementNotFoundException(key)` when the iterator is `end()`, otherwise the
mapped value of the entry found. -/
def mapped_at_const {K V A : Type} [LinearOrder K] (map : StdMap K V A) (key : K) :
    Except (Exception K) V :=
  match map.find key with
  | none => ElementNotFoundException key
  | some it => .ok it.2

/-- A `std::basic_string<C, T, A>`: its allocator and its characters. -/
structure BasicString (C A : Type) where
  allocator : A
  chars : List C
  deriving DecidableEq, Repr

/-- The function `string_length`: `static_cast<uint32_t>(str.length())`. -/
def string_length {C A : Type} (str : BasicString C A) : Nat :=
  to_uint32 str.chars.length

/-- The function `make_key` for a map of type `T`.  The first overload,
enabled when `use_map_allocator_for_keys<T>` is false, default-constructs the
key; the second, enabled when it is true, constructs it from
`map.get_allocator()`. -/
def make_key {C A K : Type} [StlContainer C A] (T : CppType) (ctors : Constructors A K)
    (map : C) : K :=
  if use_map_allocator_for_keys T then ctors.allocator_ctor (StlContainer.get_allocator map)
  else ctors.default_ctor

/-- The function `modify_element` for `std::vector<bool, A>`.  The reference
`element` is the index of the slot it designates in the vector, and the functor
`deserialize` is a function on the state `σ` it works on (the input it reads
from) that yields the value it stores in the local `value`.  The body is
`bool value; deserialize(value); element = value;`. -/
def modify_element {A σ : Type} (v : Sequence A Bool) (element : Nat)
    (deserialize : σ → Bool × σ) (s : σ) : Sequence A Bool × σ :=
  let r := deserialize s
  ({ v with elems := v.elems.set element r.1 }, r.2)

/-- The assignment `m[key] = value` on the entries of a `std::map`, with
ascending keys: `operator[]` finds the entry of `key`, inserting one at its
place in the order when there is none, and the assignment stores `value` in
it (a default-constructed mapped value that `operator[]` inserts is overwritten
at once). -/
def entries_assign {K V : Type} [LinearOrder K] (kv : K × V) : List (K × V) → List (K × V)
  | [] => [kv]
  | e :: rest =>
    if kv.1 < e.1 then kv :: e :: rest
    else if kv.1 = e.1 then (e.1, kv.2) :: rest
    else e :: entries_assign kv rest

/-- The statement `m[key] = value` for a `std::map`. -/
def StdMap.assign {K V A : Type} [LinearOrder K] (m : StdMap K V A) (key : K) (value : V) :
    StdMap K V A :=
  { m with entries := entries_assign (key, value) m.entries }

/-- What the enumerators ask of a container type: the range from `begin()` to
`end()`, as the list of the elements in iteration order, which has `size()`
elements. -/
class StlRange (C : Type) (A E : outParam Type) [StlContainer C A] where
  elements : C → List E
  size_eq : ∀ c : C, StlContainer.size c = (elements c).length

instance {A E : Type} : StlRange (Sequence A E) A E where
  elements s := s.elems
  size_eq _ := rfl

instance {T A : Type} : StlRange (StdSet T A) A T where
  elements s := s.items
  size_eq _ := rfl

instance {K V A : Type} : StlRange (StdMap K V A) A (K × V) where
  elements m := m.entries
  size_eq _ := rfl

/-- The class `const_enumerator<T>`.  The range of the container the iterators
point into is `range`; the iterators `it` and `end` are positions in it. -/
structure const_enumerator (E : Type) where
  range : List E
  it : Nat
  end_ : Nat
  deriving DecidableEq, Repr

/-- The constructor `const_enumerator(const T& list)`: `it(list.begin())`,
`end(list.end())`. -/
def const_enumerator.new {C A E : Type} [StlContainer C A] [StlRange C A E] (list : C) :
    const_enumerator E :=
  ⟨StlRange.elements list, 0, (StlRange.elements list).length⟩

/-- The member `more()` of `const_enumerator<T>`: `it != end`. -/
def const_enumerator.more {E : Type} (e : const_enumerator E) : Bool :=
  e.it != e.end_

/-- The member `next()` of `const_enumerator<T>`: `*(it++)`, the element at
`it` together with the enumerator afterwards.  It is `none` when `it` does not
point at an element, where the dereference is undefined. -/
def const_enumerator.next {E : Type} (e : const_enumerator E) :
    Option (E × const_enumerator E) :=
  (e.range[e.it]?).map fun x => (x, { e with it := e.it + 1 })

/-- The specialisation `const_enumerator<std::vector<bool, A> >`, whose
`next()` returns `bool` by value. -/
structure const_enumerator_vector_bool where
  range : List Bool
  it : Nat
  end_ : Nat
  deriving DecidableEq, Repr

/-- The constructor `const_enumerator(const std::vector<bool, A>& list)`. -/
def const_enumerator_vector_bool.new {A : Type} (list : Sequence A Bool) :
    const_enumerator_vector_bool :=
  ⟨list.elems, 0, list.elems.length⟩

/-- The member `more()` of `const_enumerator<std::vector<bool, A> >`:
`it != end`. -/
def const_enumerator_vector_bool.more (e : const_enumerator_vector_bool) : Bool :=
  e.it != e.end_

/-- The member `next()` of `const_enumerator<std::vector<bool, A> >`:
`*(it++)`, converted to `bool`. -/
def const_enumerator_vector_bool.next (e : const_enumerator_vector_bool) :
    Option (Bool × const_enumerator_vector_bool) :=
  (e.range[e.it]?).map fun x => (x, { e with it := e.it + 1 })

/-- The class `enumerator<T>`, over a mutable container.  The reference that
`next()` returns stands for the element it designates. -/
structure enumerator (E : Type) where
  range : List E
  it : Nat
  end_ : Nat
  deriving DecidableEq, Repr

/-- The constructor `enumerator(T& list)`: `it(list.begin())`,
`end(list.end())`. -/
def enumerator.new {C A E : Type} [StlContainer C A] [StlRange C A E] (list : C) :
    enumerator E :=
  ⟨StlRange.elements list, 0, (StlRange.elements list).length⟩

/-- The member `more()` of `enumerator<T>`: `it != end`. -/
def enumerator.more {E : Type} (e : enumerator E) : Bool :=
  e.it != e.end_

/-- The member `next()` of `enumerator<T>`: `*(it++)`. -/
def enumerator.next {E : Type} (e : enumerator E) : Option (E × enumerator E) :=
  (e.range[e.it]?).map fun x => (x, { e with it := e.it + 1 })

/-- The caller that makes `n` successive `next()` calls on an enumerator in
state `s`: the elements yielded, in order, and the enumerator afterwards. -/
def next_n {S E : Type} (next : S → Option (E × S)) : Nat → S → Option (List E × S)
  | 0, s => some ([], s)
  | n + 1, s =>
    match next s with
    | some (x, s') => (next_n next n s').map fun r => (x :: r.1, r.2)
    | none => none

/-- The caller that drains an enumerator, `while (e.more()) out.push_back(e.next())`,
allowed at most `fuel` calls of `next()`: the elements yielded, or `none` when
`more()` is still true after `fuel` calls or a `next()` is undefined. -/
def drain {S E : Type} (more : S → Bool) (next : S → Option (E × S)) :
    Nat → S → Option (List E)
  | 0, s => if more s then none else some []
  | fuel + 1, s =>
    if more s then
      match next s with
      | some (x, s') => (drain more next fuel s').map fun r => x :: r
      | none => none
    else some []

/-- The function `reverse_map`, on a `std::map<K, V>` with the default
comparator and allocator: starting from the empty map `reversed`, the loop
executes `reversed[it->second] = it->first` for the entries of `map` in
iteration order. -/
def reverse_map {K V : Type} [LinearOrder K] [LinearOrder V] (map : StdMap K V Unit) :
    StdMap V K Unit :=
  map.entries.foldl (fun reversed it => reversed.assign it.2 it.1) ⟨(), []⟩

/-! ## Example inputs -/

/-- The type `std::string`. -/
def example_string : CppType :=
  .basic_string .char (.char_traits .char) (.std_allocator .char)

/-- The type `std::vector<std::string>`, with the default allocator. -/
def example_vector_of_string : CppType :=
  .vector example_string (.std_allocator example_string)

/-- A user allocator template `Arena<T>`. -/
def example_arena (t : CppType) : CppType := .user_allocator 0 t

/-- The type `std::vector<std::string, Arena<std::string>>`: the strings use
the default allocator, the vector does not. -/
def example_arena_vector_of_string : CppType :=
  .vector example_string (example_arena example_string)

/-- A schema-bearing record without a nested `allocator_type`. -/
def example_record : CppType := .record 1 true

/-- A schema-bearing record whose nested `allocator_type` is `Arena<int>`. -/
def example_arena_record : CppType := .record_alloc 2 true (example_arena .int)

/-- The type `std::vector<R, Arena<R>>` for the record `R` with allocator type
`Arena<int>`. -/
def example_vector_of_arena_record : CppType :=
  .vector example_arena_record (example_arena example_arena_record)

/-- The type `std::map<int, R, std::less<int>, Arena<std::pair<const int, R>>>`
for the schema-bearing record `R` without `allocator_type`. -/
def example_map_to_record : CppType :=
  .map .int example_record (.std_less .int)
    (example_arena (.pair (.const .int) example_record))

/-- The type `std::map<R, int, std::less<R>, Arena<std::pair<const R, int>>>`
for the schema-bearing record `R` without `allocator_type`. -/
def example_map_from_record : CppType :=
  .map example_record .int (.std_less example_record)
    (example_arena (.pair (.const example_record) .int))

/-- A schema-bearing record `P` whose nested `allocator_type` is `Pool<int>`,
an instance of a user allocator template other than `Arena`. -/
def example_pool_record : CppType := .record_alloc 3 true (.user_allocator 1 .int)

/-- The type `std::map<P, int, std::less<P>, Arena<std::pair<const P, int>>>`
for the schema-bearing record `P` with allocator type `Pool<int>`. -/
def example_map_from_pool_record : CppType :=
  .map example_pool_record .int (.std_less example_pool_record)
    (example_arena (.pair (.const example_pool_record) .int))

/-- Constructors of a field type whose values record how they were built:
`0` by the default constructor, `a + 1` from the allocator `a`, `a + 2` from a
comparator and the allocator `a`. -/
def example_ctors : Constructors Nat Nat :=
  ⟨0, fun a => a + 1, fun a => a + 2⟩

/-- A sequence with allocator `7` holding `[1, 2, 3]`. -/
def example_sequence : Sequence Nat Nat := ⟨7, [1, 2, 3]⟩

/-- The map `{1: "a", 2: "b"}`. -/
def example_map : StdMap Nat String Unit := ⟨(), [(1, "a"), (2, "b")]⟩

/-- A map `{1: 10, 3: 30}` with allocator `7`. -/
def example_nat_map : StdMap Nat Nat Nat := ⟨7, [(1, 10), (3, 30)]⟩

/-- The type `std::map<int, int>` with the default comparator and allocator. -/
def example_map_of_int : CppType :=
  .map .int .int (.std_less .int) (.std_allocator (.pair (.const .int) .int))

/-- The set `{1, 3, 5}`. -/
def example_set : StdSet Nat Unit := ⟨(), [1, 3, 5]⟩

/-- The type `std::vector<bool>`. -/
def example_vector_of_bool : CppType := .vector .bool (.std_allocator .bool)

/-- The constructors of `bool` for the `make_` functions: `bool()` is `false`.
The type `bool` has no constructor from an allocator; the overloads that would
call one are never enabled for `std::vector<bool, A>`. -/
def bool_ctors (A : Type) : Constructors A Bool :=
  ⟨false, fun _ => false, fun _ => false⟩

/-- The empty `std::vector<bool>`. -/
def example_empty_bool_vector : Sequence Unit Bool := ⟨(), []⟩

/-- The sequence `[10, 20, 30]`. -/
def example_sequence_10_20_30 : Sequence Unit Nat := ⟨(), [10, 20, 30]⟩

/-- The map `{1: "x", 2: "y"}`. -/
def example_map_xy : StdMap Nat String Unit := ⟨(), [(1, "x"), (2, "y")]⟩

/-- The map `{1: "x", 2: "x"}`. -/
def example_map_xx : StdMap Nat String Unit := ⟨(), [(1, "x"), (2, "x")]⟩

/-- A `std::vector<bool>` of `2 ^ 32` elements, all false. -/
def example_huge_bool_vector : Sequence Unit Bool := ⟨(), List.replicate (2 ^ 32) false⟩

/-- A `std::string` of `2 ^ 32` characters. -/
def example_huge_string : BasicString Char Unit := ⟨(), List.replicate (2 ^ 32) 'a'⟩

/-- The type `std::map<R, R, std::less<R>, Arena<std::pair<const R, R>>>` for
the record `R` with allocator type `Arena<int>`. -/
def example_map_of_arena_records : CppType :=
  .map example_arena_record example_arena_record (.std_less example_arena_record)
    (example_arena (.pair (.const example_arena_record) example_arena_record))

/-- The `std::map` of the `n` entries `i -> 0` for the keys `0` to `n - 1`,
with allocator `7`. -/
def example_range_map (n : Nat) : StdMap Nat Nat Nat :=
  ⟨7, (List.range n).map fun i => (i, 0)⟩

/-- A `std::map` of `2 ^ 32 - 1` entries, for the keys `0` to `2 ^ 32 - 2`. -/
def example_huge_map : StdMap Nat Nat Nat := example_range_map (2 ^ 32 - 1)

/-- The `std::set` of the `n` items `0` to `n - 1`. -/
def example_range_set (n : Nat) : StdSet Nat Unit := ⟨(), List.range n⟩

/-- A `std::set` of the `2 ^ 32 - 1` items `0` to `2 ^ 32 - 2`. -/
def example_huge_set : StdSet Nat Unit := example_range_set (2 ^ 32 - 1)

/-! # Theorems -/

/-! ## Container classification -/

/-- C1: each supported container type (`std::basic_string<char>`,
`std::basic_string<wchar_t>`, `std::list`, `std::vector`, `std::set`,
`std::map`, with any traits, comparator and allocator arguments) satisfies
exactly one of `is_string_type`, `is_list_container`, `is_set_container` and
`is_map_container`, the one of its own shape. -/
theorem classification_exactly_one (t k c tr a : CppType) :
    (is_string_type (.basic_string .char tr a) = true
      ∧ is_list_container (.basic_string .char tr a) = false
      ∧ is_set_container (.basic_string .char tr a) = false
      ∧ is_map_container (.basic_string .char tr a) = false)
    ∧ (is_string_type (.basic_string .wchar_t tr a) = true
      ∧ is_list_container (.basic_string .wchar_t tr a) = false
      ∧ is_set_container (.basic_string .wchar_t tr a) = false
      ∧ is_map_container (.basic_string .wchar_t tr a) = false)
    ∧ (is_string_type (.list t a) = false
      ∧ is_list_container (.list t a) = true
      ∧ is_set_container (.list t a) = false
      ∧ is_map_container (.list t a) = false)
    ∧ (is_string_type (.vector t a) = false
      ∧ is_list_container (.vector t a) = true
      ∧ is_set_container (.vector t a) = false
      ∧ is_map_container (.vector t a) = false)
    ∧ (is_string_type (.set t c a) = false
      ∧ is_list_container (.set t c a) = false
      ∧ is_set_container (.set t c a) = true
      ∧ is_map_container (.set t c a) = false)
    ∧ (is_string_type (.map k t c a) = false
      ∧ is_list_container (.map k t c a) = false
      ∧ is_set_container (.map k t c a) = false
      ∧ is_map_container (.map k t c a) = true) := by
  simp [is_string_type, remove_const, is_string, is_wstring, is_list_container,
    is_set_container, is_map_container]

/-! ## Allocator propagation policy -/

/-- C2, as stated, fails.  Without `BOND_NO_CXX11_ALLOCATOR` the trait is true
for `std::vector<std::string>`, whose allocator is the default allocator; and
with `BOND_NO_CXX11_ALLOCATOR` it has no value for a vector with an arena
allocator of schema-bearing records that use the same arena, where both
specialisations apply. -/
theorem use_container_allocator_for_elements_counterexample :
    (allocator_type example_vector_of_string = some (.std_allocator example_string)
      ∧ is_default_allocator (.std_allocator example_string) = true
      ∧ use_container_allocator_for_elements ⟨false⟩ example_vector_of_string = some true)
    ∧ ¬ (use_container_allocator_for_elements ⟨false⟩ example_vector_of_string = some true ↔
          (is_default_allocator (.std_allocator example_string) = false
            ∧ (rebind_compatible (.std_allocator example_string) example_string = true
                ∨ has_schema example_string = true)))
    ∧ use_container_allocator_for_elements ⟨true⟩ example_vector_of_arena_record = none := by
  decide

/-- C2, amended: for a container type `T` with allocator `A` and element type
`F`, and for a map type `M` with allocator `B` and mapped type `V`.  With
`BOND_NO_CXX11_ALLOCATOR` defined, `use_container_allocator_for_elements<T>`
and `use_map_allocator_for_values<M>` have no value when both specialisations
apply; otherwise they have a value, which is true if and only if the allocator
is not the default allocator and the field's allocator is rebind-compatible
with it or the field is schema-bearing, and so is false when the allocator is
the default allocator.  Without `BOND_NO_CXX11_ALLOCATOR` the traits are
`std::uses_allocator` of the field type and the allocator, whatever the
allocator is. -/
theorem allocator_affinity_by_build (T A F M B V : CppType)
    (hA : allocator_type T = some A) (hF : element_type T = some F)
    (hB : allocator_type M = some B) (hV : (element_type M).bind second_type = some V) :
    (¬ (rebind_compatible A F = true ∧ has_schema F = true ∧ is_default_allocator A = false) →
      ∃ b, use_container_allocator_for_elements ⟨true⟩ T = some b
        ∧ (b = true ↔ is_default_allocator A = false
                        ∧ (rebind_compatible A F = true ∨ has_schema F = true)))
    ∧ (¬ (rebind_compatible B V = true ∧ has_schema V = true ∧ is_default_allocator B = false) →
      ∃ b, use_map_allocator_for_values ⟨true⟩ M = some b
        ∧ (b = true ↔ is_default_allocator B = false
                        ∧ (rebind_compatible B V = true ∨ has_schema V = true)))
    ∧ ((rebind_compatible A F = true ∧ has_schema F = true ∧ is_default_allocator A = false) →
        use_container_allocator_for_elements ⟨true⟩ T = none)
    ∧ ((rebind_compatible B V = true ∧ has_schema V = true ∧ is_default_allocator B = false) →
        use_map_allocator_for_values ⟨true⟩ M = none)
    ∧ (is_default_allocator A = true →
        use_container_allocator_for_elements ⟨true⟩ T = some false)
    ∧ (is_default_allocator B = true →
        use_map_allocator_for_values ⟨true⟩ M = some false)
    ∧ use_container_allocator_for_elements ⟨false⟩ T = some (uses_allocator F A)
    ∧ use_map_allocator_for_values ⟨false⟩ M = some (uses_allocator V B) := by
  simp only [use_container_allocator_for_elements, use_map_allocator_for_values, hA, hF, hB, hV,
    legacy_allocator_trait]
  cases h1 : rebind_compatible A F <;> cases h2 : has_schema F <;>
    cases h3 : is_default_allocator A <;> cases h4 : rebind_compatible B V <;>
    cases h5 : has_schema V <;> cases h6 : is_default_allocator B <;>
    simp_all

/-- The amended C2 at `std::vector<std::string, Arena<std::string>>` and at
`std::map<int, R, std::less<int>, Arena<...>>` for a schema-bearing record
`R`.  With `BOND_NO_CXX11_ALLOCATOR` the first trait is false (the string's
allocator is not an arena) and the second is true; without it both are
`std::uses_allocator`, which is false for both. -/
theorem allocator_affinity_by_build_witness :
    (∃ b, use_container_allocator_for_elements ⟨true⟩ example_arena_vector_of_string = some b
        ∧ (b = true ↔ is_default_allocator (example_arena example_string) = false
            ∧ (rebind_compatible (example_arena example_string) example_string = true
                ∨ has_schema example_string = true)))
    ∧ (∃ b, use_map_allocator_for_values ⟨true⟩ example_map_to_record = some b
        ∧ (b = true ↔
            is_default_allocator (example_arena (.pair (.const .int) example_record)) = false
            ∧ (rebind_compatible (example_arena (.pair (.const .int) example_record))
                  example_record = true
                ∨ has_schema example_record = true)))
    ∧ use_container_allocator_for_elements ⟨false⟩ example_arena_vector_of_string
        = some (uses_allocator example_string (example_arena example_string))
    ∧ use_map_allocator_for_values ⟨false⟩ example_map_to_record
        = some (uses_allocator example_record
            (example_arena (.pair (.const .int) example_record))) :=
  have h := allocator_affinity_by_build example_arena_vector_of_string
    (example_arena example_string) example_string example_map_to_record
    (example_arena (.pair (.const .int) example_record)) example_record
    rfl rfl rfl rfl
  ⟨h.1 (by decide), h.2.1 (by decide), h.2.2.2.2.2.2.1, h.2.2.2.2.2.2.2⟩

/-- C3, as stated, fails: for
`std::map<P, int, std::less<P>, Arena<std::pair<const P, int>>>`, whose key
type `P` is schema-bearing with an allocator type `Pool<int>` that is not
rebind-compatible with the map's allocator, and likewise for a schema-bearing
key type `R` without an allocator type, the allocator of the map is not the
default allocator and `use_map_allocator_for_keys` is false, not true. -/
theorem use_map_allocator_for_keys_schema_key :
    ((element_type example_map_from_pool_record).bind first_type = some example_pool_record
      ∧ has_schema example_pool_record = true
      ∧ (allocator_type example_map_from_pool_record).map is_default_allocator = some false
      ∧ use_map_allocator_for_keys example_map_from_pool_record = false
      ∧ ¬ use_map_allocator_for_keys example_map_from_pool_record = true)
    ∧ ((element_type example_map_from_record).bind first_type = some example_record
      ∧ has_schema example_record = true
      ∧ (allocator_type example_map_from_record).map is_default_allocator = some false
      ∧ use_map_allocator_for_keys example_map_from_record = false
      ∧ ¬ use_map_allocator_for_keys example_map_from_record = true) := by
  decide

/-- C3, amended: for a map type `T` with allocator `A` and key type `F`,
`use_map_allocator_for_keys<T>` is true if and only if `A` is not the default
allocator and the allocator type of `F` is rebind-compatible with `A`; whether
`F` is schema-bearing plays no part, so the trait is false for every key type,
schema-bearing or not, whose allocator type is not rebind-compatible with `A`.
The key affinity is the same in both builds. -/
theorem use_map_allocator_for_keys_iff (T A F : CppType)
    (hA : allocator_type T = some A) (hF : (element_type T).bind first_type = some F) :
    (use_map_allocator_for_keys T = true
      ↔ is_default_allocator A = false ∧ rebind_compatible A F = true)
    ∧ (rebind_compatible A F = false → use_map_allocator_for_keys T = false)
    ∧ (is_default_allocator A = true → use_map_allocator_for_keys T = false) := by
  simp only [use_map_allocator_for_keys, hA, hF]
  cases h1 : rebind_compatible A F <;> cases h2 : is_default_allocator A <;> simp

/-- The amended C3 at
`std::map<R, R, std::less<R>, Arena<std::pair<const R, R>>>` for the record `R`
with allocator type `Arena<int>`, where the trait is true, and at
`std::map<P, int, std::less<P>, Arena<...>>` for the schema-bearing record `P`
with allocator type `Pool<int>`, where it is false. -/
theorem use_map_allocator_for_keys_iff_witness :
    use_map_allocator_for_keys example_map_of_arena_records = true
    ∧ use_map_allocator_for_keys example_map_from_pool_record = false :=
  ⟨(use_map_allocator_for_keys_iff example_map_of_arena_records
      (example_arena (.pair (.const example_arena_record) example_arena_record))
      example_arena_record rfl rfl).1.mpr (by decide),
    (use_map_allocator_for_keys_iff example_map_from_pool_record
      (example_arena (.pair (.const example_pool_record) .int))
      example_pool_record rfl rfl).2.1 (by decide)⟩

/-! ## Sequences -/

theorem Sequence.length_resize {A E : Type} (s : Sequence A E) (n : Nat) (val : E) :
    (s.resize n val).elems.length = n := by
  simp only [Sequence.resize, List.length_append, List.length_take, List.length_replicate]
  omega

theorem element_type_of_use_container_allocator {cfg : Config} {T : CppType}
    (h : use_container_allocator_for_elements cfg T = some true) :
    ∃ F, element_type T = some F := by
  unfold use_container_allocator_for_elements at h
  cases hA : allocator_type T <;> cases hF : element_type T <;> simp_all

theorem make_element_default {C A E : Type} [StlContainer C A] {cfg : Config} {T : CppType}
    (ctors : Constructors A E) (container : C)
    (h : use_container_allocator_for_elements cfg T = some false) :
    make_element cfg T ctors container = some ctors.default_ctor := by
  simp [make_element, h]

theorem make_element_allocator {C A E : Type} [StlContainer C A] {cfg : Config} {T : CppType}
    (ctors : Constructors A E) (container : C)
    (h : use_container_allocator_for_elements cfg T = some true) :
    ∃ e, make_element cfg T ctors container = some e
      ∧ (e = ctors.allocator_ctor (StlContainer.get_allocator container)
          ∨ e = ctors.compare_allocator_ctor (StlContainer.get_allocator container)) := by
  obtain ⟨F, hF⟩ := element_type_of_use_container_allocator h
  cases hk : has_key_compare F <;> simp [make_element, h, hF, hk]

/-- C4: for a sequence of a type `T` whose allocator trait has a value (either
overload of `resize_list`) and every 32-bit unsigned `n`, `resize_list`
returns, and `container_size` of the sequence afterwards is `n`. -/
theorem resize_list_container_size {A E : Type} (cfg : Config) (T : CppType)
    (ctors : Constructors A E) (seq : Sequence A E) (n : Nat) (b : Bool)
    (hn : n < 2 ^ 32) (hT : use_container_allocator_for_elements cfg T = some b) :
    ∃ r, resize_list cfg T ctors seq n = some r ∧ container_size r = n := by
  cases b with
  | false =>
    refine ⟨seq.resize n ctors.default_ctor, ?_, ?_⟩
    · simp [resize_list, hT, make_element_default ctors seq hT]
    · simp only [container_size, to_uint32, StlContainer.size, Sequence.length_resize]
      exact Nat.mod_eq_of_lt hn
  | true =>
    obtain ⟨e, he, -⟩ := make_element_allocator ctors seq.clear hT
    refine ⟨seq.clear.resize n e, ?_, ?_⟩
    · simp [resize_list, hT, he]
    · simp only [container_size, to_uint32, StlContainer.size, Sequence.length_resize]
      exact Nat.mod_eq_of_lt hn

/-- C4 at the sequence `[1, 2, 3]` of type `std::vector<std::string>` resized
to `5`. -/
theorem resize_list_container_size_witness :
    ∃ r, resize_list ⟨true⟩ example_vector_of_string example_ctors example_sequence 5 = some r
      ∧ container_size r = 5 :=
  resize_list_container_size ⟨true⟩ example_vector_of_string example_ctors example_sequence 5
    false (by decide) (by decide)

/-- C5: for a sequence of a type `T` that does not use the container allocator
for its elements, `resize_list` returns a sequence of length `n` with the same
allocator, whose first `min old_size n` elements are those of the original in
order, and whose elements from index `old_size` on are `make_element(seq)`, the
default-constructed element. -/
theorem resize_list_in_place {A E : Type} (cfg : Config) (T : CppType)
    (ctors : Constructors A E) (seq : Sequence A E) (n : Nat)
    (hT : use_container_allocator_for_elements cfg T = some false) :
    ∃ r e, resize_list cfg T ctors seq n = some r
      ∧ make_element cfg T ctors seq = some e
      ∧ e = ctors.default_ctor
      ∧ r.allocator = seq.allocator
      ∧ r.elems.length = n
      ∧ r.elems.take (min seq.elems.length n) = seq.elems.take (min seq.elems.length n)
      ∧ ∀ i, seq.elems.length ≤ i → i < n → r.elems[i]? = some e := by
  refine ⟨seq.resize n ctors.default_ctor, ctors.default_ctor, ?_,
    make_element_default ctors seq hT, rfl, rfl, Sequence.length_resize _ _ _, ?_, ?_⟩
  · simp [resize_list, hT, make_element_default ctors seq hT]
  · simp only [Sequence.resize]
    rw [List.take_append_of_le_length (by simp [List.length_take]), List.take_take]
    congr 1
    omega
  · intro i hi hin
    simp only [Sequence.resize]
    rw [List.getElem?_append_right (by simp [List.length_take]; omega)]
    rw [List.getElem?_replicate]
    simp [List.length_take]
    omega

/-- C5 at the sequence `[1, 2, 3]` of type `std::vector<std::string>` resized
to `5`, with `BOND_NO_CXX11_ALLOCATOR` defined. -/
theorem resize_list_in_place_witness :
    ∃ r e, resize_list ⟨true⟩ example_vector_of_string example_ctors example_sequence 5 = some r
      ∧ make_element ⟨true⟩ example_vector_of_string example_ctors example_sequence = some e
      ∧ e = example_ctors.default_ctor
      ∧ r.allocator = example_sequence.allocator
      ∧ r.elems.length = 5
      ∧ r.elems.take (min example_sequence.elems.length 5)
          = example_sequence.elems.take (min example_sequence.elems.length 5)
      ∧ ∀ i, example_sequence.elems.length ≤ i → i < 5 → r.elems[i]? = some e :=
  resize_list_in_place ⟨true⟩ example_vector_of_string example_ctors example_sequence 5
    (by decide)

/-- C6: for a sequence of a type `T` that uses the container allocator for its
elements, `resize_list` returns the sequence, with the same allocator, of
exactly `n` copies of `make_element(seq)`, an element constructed from the
allocator of the sequence; the result does not depend on the original
contents. -/
theorem resize_list_clears {A E : Type} (cfg : Config) (T : CppType)
    (ctors : Constructors A E) (seq : Sequence A E) (n : Nat)
    (hT : use_container_allocator_for_elements cfg T = some true) :
    ∃ e, make_element cfg T ctors seq = some e
      ∧ (e = ctors.allocator_ctor seq.allocator
          ∨ e = ctors.compare_allocator_ctor seq.allocator)
      ∧ resize_list cfg T ctors seq n = some ⟨seq.allocator, List.replicate n e⟩
      ∧ ∀ contents : List E,
          resize_list cfg T ctors ⟨seq.allocator, contents⟩ n
            = resize_list cfg T ctors seq n := by
  obtain ⟨F, hF⟩ := element_type_of_use_container_allocator hT
  cases hk : has_key_compare F <;>
    simp [resize_list, make_element, hT, hF, hk, StlContainer.get_allocator, Sequence.clear,
      Sequence.resize]

/-- C6 at the sequence `[1, 2, 3]` of type `std::vector<std::string>` resized
to `2`, without `BOND_NO_CXX11_ALLOCATOR`. -/
theorem resize_list_clears_witness :
    ∃ e, make_element ⟨false⟩ example_vector_of_string example_ctors example_sequence = some e
      ∧ (e = example_ctors.allocator_ctor example_sequence.allocator
          ∨ e = example_ctors.compare_allocator_ctor example_sequence.allocator)
      ∧ resize_list ⟨false⟩ example_vector_of_string example_ctors example_sequence 2
          = some ⟨example_sequence.allocator, List.replicate 2 e⟩
      ∧ ∀ contents : List Nat,
          resize_list ⟨false⟩ example_vector_of_string example_ctors
              ⟨example_sequence.allocator, contents⟩ 2
            = resize_list ⟨false⟩ example_vector_of_string example_ctors example_sequence 2 :=
  resize_list_clears ⟨false⟩ example_vector_of_string example_ctors example_sequence 2
    (by decide)

/-! ## Maps -/

theorem StdMap.find_eq_none_iff {K V A : Type} [LinearOrder K] (m : StdMap K V A) (k : K) :
    m.find k = none ↔ ∀ v, (k, v) ∉ m.entries := by
  simp only [StdMap.find, List.find?_eq_none, decide_eq_true_eq]
  constructor
  · intro h v hv
    exact h (k, v) hv rfl
  · rintro h ⟨k', v⟩ hmem heq
    simp only at heq
    subst heq
    exact h v hmem

theorem find?_key_of_pairwise {K V : Type} [LinearOrder K] {l : List (K × V)} {k : K} {v : V}
    (hwf : l.Pairwise (fun a b => a.1 < b.1)) (hmem : (k, v) ∈ l) :
    l.find? (fun e => decide (e.1 = k)) = some (k, v) := by
  induction l with
  | nil => simp at hmem
  | cons e rest ih =>
    rw [List.pairwise_cons] at hwf
    rcases List.mem_cons.mp hmem with h | h
    · subst h
      simp
    · have hlt : e.1 < k := hwf.1 (k, v) h
      rw [List.find?_cons_of_neg _ (by simpa using ne_of_lt hlt)]
      exact ih hwf.2 h

theorem StdMap.find_of_mem {K V A : Type} [LinearOrder K] {m : StdMap K V A} {k : K} {v : V}
    (hwf : m.WF) (hmem : (k, v) ∈ m.entries) : m.find k = some (k, v) :=
  find?_key_of_pairwise hwf hmem

theorem mapped_at_const_of_mem {K V A : Type} [LinearOrder K] {m : StdMap K V A} {k : K} {v : V}
    (hwf : m.WF) (hmem : (k, v) ∈ m.entries) : mapped_at_const m k = .ok v := by
  simp [mapped_at_const, StdMap.find_of_mem hwf hmem]

/-- C7: on a map `m` and a key `k`, the read-only `mapped_at` fails with
`ElementNotFound(k)` if and only if `k` is not a key of `m`, it fails in no
other way, and when `k` is a key of `m` it returns the value stored for `k`. -/
theorem mapped_at_const_spec {K V A : Type} [LinearOrder K] (m : StdMap K V A) (k : K)
    (hwf : m.WF) :
    (mapped_at_const m k = .error (.ElementNotFound k) ↔ ∀ v, (k, v) ∉ m.entries)
    ∧ (∀ e, mapped_at_const m k = .error e → e = .ElementNotFound k)
    ∧ (∀ v, (k, v) ∈ m.entries → mapped_at_const m k = .ok v) := by
  refine ⟨?_, ?_, fun v hv => mapped_at_const_of_mem hwf hv⟩
  · rw [← StdMap.find_eq_none_iff]
    unfold mapped_at_const
    cases h : m.find k <;> simp [ElementNotFoundException]
  · intro e
    unfold mapped_at_const
    cases h : m.find k <;> simp [ElementNotFoundException]
    exact fun h => h.symm

/-- C7 at the map `{1: "a", 2: "b"}`: key `3` fails with `ElementNotFound(3)`
and key `1` returns `"a"`. -/
theorem mapped_at_const_spec_witness :
    example_map.WF
    ∧ mapped_at_const example_map 3 = .error (.ElementNotFound 3)
    ∧ mapped_at_const example_map 1 = .ok "a" :=
  ⟨by decide,
    (mapped_at_const_spec example_map 3 (by decide)).1.mpr (by simp [example_map]),
    (mapped_at_const_spec example_map 1 (by decide)).2.2 "a" (by simp [example_map])⟩

theorem entries_insert_mem {K V : Type} [LinearOrder K] (kv : K × V) (l : List (K × V))
    (x : K × V) (hx : x ∈ (entries_insert kv l).1) : x = kv ∨ x ∈ l := by
  induction l with
  | nil => simpa [entries_insert] using hx
  | cons e rest ih =>
    unfold entries_insert at hx
    split_ifs at hx with h1 h2
    · simpa using hx
    · exact Or.inr hx
    · rcases List.mem_cons.mp hx with h | h
      · exact Or.inr (h ▸ List.mem_cons_self _ _)
      · rcases ih h with h | h
        · exact Or.inl h
        · exact Or.inr (List.mem_cons_of_mem _ h)

theorem entries_insert_pairwise {K V : Type} [LinearOrder K] (kv : K × V) (l : List (K × V))
    (hwf : l.Pairwise (fun a b => a.1 < b.1)) :
    (entries_insert kv l).1.Pairwise (fun a b => a.1 < b.1) := by
  induction l with
  | nil => simp [entries_insert]
  | cons e rest ih =>
    have hwf' := List.pairwise_cons.mp hwf
    unfold entries_insert
    split_ifs with h1 h2
    · refine List.pairwise_cons.mpr ⟨?_, hwf⟩
      intro x hx
      rcases List.mem_cons.mp hx with h | h
      · exact h ▸ h1
      · exact lt_trans h1 (hwf'.1 x h)
    · exact hwf
    · refine List.pairwise_cons.mpr ⟨?_, ih hwf'.2⟩
      intro x hx
      rcases entries_insert_mem kv rest x hx with h | h
      · rw [h]
        exact lt_of_le_of_ne (not_lt.mp h1) (fun h => h2 h.symm)
      · exact hwf'.1 x h

theorem entries_insert_absent {K V : Type} [LinearOrder K] (kv : K × V) (l : List (K × V))
    (habs : ∀ e ∈ l, e.1 ≠ kv.1) :
    (entries_insert kv l).1.Perm (kv :: l) ∧ (entries_insert kv l).2.1 = kv
      ∧ (entries_insert kv l).2.2 = true := by
  induction l with
  | nil => simp [entries_insert]
  | cons e rest ih =>
    have hne : ¬ kv.1 = e.1 := fun h => habs e (List.mem_cons_self _ _) h.symm
    obtain ⟨ih1, ih2, ih3⟩ := ih (fun x hx => habs x (List.mem_cons_of_mem _ hx))
    unfold entries_insert
    split_ifs with h1
    · exact ⟨List.Perm.refl _, rfl, rfl⟩
    · exact ⟨(List.Perm.cons e ih1).trans (List.Perm.swap kv e rest), ih2, ih3⟩

theorem entries_insert_present {K V : Type} [LinearOrder K] (kv : K × V) (l : List (K × V))
    (e : K × V) (hwf : l.Pairwise (fun a b => a.1 < b.1)) (hmem : e ∈ l) (hkey : e.1 = kv.1) :
    entries_insert kv l = (l, e, false) := by
  induction l with
  | nil => simp at hmem
  | cons y rest ih =>
    have hwf' := List.pairwise_cons.mp hwf
    unfold entries_insert
    rcases List.mem_cons.mp hmem with h | h
    · subst h
      simp [hkey]
    · have hlt : y.1 < kv.1 := hkey ▸ hwf'.1 e h
      rw [if_neg (not_lt.mpr (le_of_lt hlt)), if_neg (fun h => ne_of_lt hlt h.symm)]
      simp [ih hwf'.2 h]

theorem entries_insert_iterator {K V : Type} [LinearOrder K] (kv : K × V) (l : List (K × V)) :
    (entries_insert kv l).2.1 ∈ (entries_insert kv l).1
      ∧ (entries_insert kv l).2.1.1 = kv.1 := by
  induction l with
  | nil => simp [entries_insert]
  | cons e rest ih =>
    unfold entries_insert
    split_ifs with h1 h2
    · simp
    · simp [h2]
    · exact ⟨List.mem_cons_of_mem _ ih.1, ih.2⟩

theorem make_value_isSome {C A V : Type} [StlContainer C A] {cfg : Config} {T : CppType}
    {b : Bool} (ctors : Constructors A V) (map : C)
    (h : use_map_allocator_for_values cfg T = some b) :
    ∃ v, make_value cfg T ctors map = some v := by
  cases b with
  | false => exact ⟨ctors.default_ctor, by simp [make_value, h]⟩
  | true =>
    have hF : ∃ F, (element_type T).bind second_type = some F := by
      unfold use_map_allocator_for_values at h
      cases hA : allocator_type T <;> cases hF : (element_type T).bind second_type <;> simp_all
    obtain ⟨F, hF⟩ := hF
    cases hk : has_key_compare F <;> simp [make_value, h, hF, hk]

/-- C8, amended: for a map `m` of a type `T` whose value allocator trait has a
value, and a key `k` absent from `m`, the mutable `mapped_at` returns
`make_value(m)` and leaves the map with the same allocator whose entries are
those of `m` and the one entry `k -> make_value(m)`, in key order: the number
of entries grows by one, so that `container_size` grows by one modulo
`2 ^ 32` (by exactly one when the new number of entries is below `2 ^ 32`),
`k` maps to the returned value and every key of `m` still maps to its
value. -/
theorem mapped_at_absent {K V A : Type} [LinearOrder K] (cfg : Config) (T : CppType)
    (ctors : Constructors A V) (m : StdMap K V A) (k : K) (b : Bool)
    (hwf : m.WF) (hT : use_map_allocator_for_values cfg T = some b)
    (habs : ∀ v, (k, v) ∉ m.entries) :
    ∃ v m', make_value cfg T ctors m = some v
      ∧ mapped_at cfg T ctors m k = some (v, m')
      ∧ m'.allocator = m.allocator
      ∧ m'.WF
      ∧ m'.entries.Perm ((k, v) :: m.entries)
      ∧ m'.entries.length = m.entries.length + 1
      ∧ container_size m' = (container_size m + 1) % 2 ^ 32
      ∧ (m.entries.length + 1 < 2 ^ 32 → container_size m' = container_size m + 1)
      ∧ mapped_at_const m' k = .ok v
      ∧ ∀ k' v', (k', v') ∈ m.entries → mapped_at_const m' k' = .ok v' := by
  obtain ⟨v, hv⟩ := make_value_isSome ctors m hT
  have habs' : ∀ e ∈ m.entries, e.1 ≠ (k, v).1 := by
    rintro ⟨k', v'⟩ he heq
    simp only at heq
    subst heq
    exact habs v' he
  obtain ⟨hperm, hit, -⟩ := entries_insert_absent (k, v) m.entries habs'
  have hwf' : (m.insert (k, v)).1.WF := entries_insert_pairwise (k, v) m.entries hwf
  have hlen : (m.insert (k, v)).1.entries.length = m.entries.length + 1 := by
    simpa using hperm.length_eq
  refine ⟨v, (m.insert (k, v)).1, hv, ?_, rfl, hwf', hperm, hlen, ?_, ?_, ?_, ?_⟩
  · simp [mapped_at, hv, StdMap.insert, hit]
  · simp only [container_size, to_uint32, StlContainer.size, hlen]
    omega
  · intro hsmall
    simp only [container_size, to_uint32, StlContainer.size, hlen]
    omega
  · exact mapped_at_const_of_mem hwf' (hperm.mem_iff.mpr (List.mem_cons_self _ _))
  · intro k' v' hmem
    exact mapped_at_const_of_mem hwf' (hperm.mem_iff.mpr (List.mem_cons_of_mem _ hmem))

/-- The amended C8 at the map `{1: 10, 3: 30}` of type `std::map<int, int>`
and the absent key `2`. -/
theorem mapped_at_absent_witness :
    ∃ v m', make_value ⟨false⟩ example_map_of_int example_ctors example_nat_map = some v
      ∧ mapped_at ⟨false⟩ example_map_of_int example_ctors example_nat_map 2 = some (v, m')
      ∧ m'.allocator = example_nat_map.allocator
      ∧ m'.WF
      ∧ m'.entries.Perm ((2, v) :: example_nat_map.entries)
      ∧ m'.entries.length = example_nat_map.entries.length + 1
      ∧ container_size m' = (container_size example_nat_map + 1) % 2 ^ 32
      ∧ (example_nat_map.entries.length + 1 < 2 ^ 32 →
          container_size m' = container_size example_nat_map + 1)
      ∧ mapped_at_const m' 2 = .ok v
      ∧ ∀ k' v', (k', v') ∈ example_nat_map.entries → mapped_at_const m' k' = .ok v' :=
  mapped_at_absent ⟨false⟩ example_map_of_int example_ctors example_nat_map 2 false
    (by decide) (by decide) (by simp [example_nat_map])

/-- C9: for a map `m` of a type `T` whose value allocator trait has a value,
and a key `k`: when `k` is present, the mutable `mapped_at` returns the stored
value and leaves `m` unchanged; and in every case a second call with the same
`k` returns the value the first call returned and leaves the map, and so its
`container_size`, as the first call left it. -/
theorem mapped_at_present {K V A : Type} [LinearOrder K] (cfg : Config) (T : CppType)
    (ctors : Constructors A V) (m : StdMap K V A) (k : K) (b : Bool)
    (hwf : m.WF) (hT : use_map_allocator_for_values cfg T = some b) :
    (∀ v, (k, v) ∈ m.entries → mapped_at cfg T ctors m k = some (v, m))
    ∧ ∃ v₁ m₁ v₂ m₂, mapped_at cfg T ctors m k = some (v₁, m₁)
        ∧ mapped_at cfg T ctors m₁ k = some (v₂, m₂)
        ∧ v₂ = v₁ ∧ m₂ = m₁ ∧ container_size m₂ = container_size m₁ := by
  have key : ∀ (m : StdMap K V A), m.WF → ∀ v, (k, v) ∈ m.entries →
      mapped_at cfg T ctors m k = some (v, m) := by
    intro m hwf v hmem
    obtain ⟨d, hd⟩ := make_value_isSome ctors m hT
    simp [mapped_at, hd, StdMap.insert,
      entries_insert_present (k, d) m.entries (k, v) hwf hmem rfl]
  refine ⟨key m hwf, ?_⟩
  obtain ⟨d, hd⟩ := make_value_isSome ctors m hT
  have hwf' : (m.insert (k, d)).1.WF := entries_insert_pairwise (k, d) m.entries hwf
  obtain ⟨hmem, hk⟩ := entries_insert_iterator (k, d) m.entries
  have hmem' : (k, (m.insert (k, d)).2.1.2) ∈ (m.insert (k, d)).1.entries := by
    have : (k, (m.insert (k, d)).2.1.2) = (entries_insert (k, d) m.entries).2.1 :=
      Prod.ext hk.symm rfl
    rw [this]
    exact hmem
  refine ⟨(m.insert (k, d)).2.1.2, (m.insert (k, d)).1, (m.insert (k, d)).2.1.2,
    (m.insert (k, d)).1, ?_, key _ hwf' _ hmem', rfl, rfl, rfl⟩
  simp [mapped_at, hd]

/-- C9 at the map `{1: 10, 3: 30}` of type `std::map<int, int>` and the key
`3`. -/
theorem mapped_at_present_witness :
    (∀ v, (3, v) ∈ example_nat_map.entries →
      mapped_at ⟨false⟩ example_map_of_int example_ctors example_nat_map 3
        = some (v, example_nat_map))
    ∧ ∃ v₁ m₁ v₂ m₂,
        mapped_at ⟨false⟩ example_map_of_int example_ctors example_nat_map 3 = some (v₁, m₁)
        ∧ mapped_at ⟨false⟩ example_map_of_int example_ctors m₁ 3 = some (v₂, m₂)
        ∧ v₂ = v₁ ∧ m₂ = m₁ ∧ container_size m₂ = container_size m₁ :=
  mapped_at_present ⟨false⟩ example_map_of_int example_ctors example_nat_map 3 false
    (by decide) (by decide)

/-! ## Sets -/

theorem ordered_insert_idem {T : Type} [LinearOrder T] (x : T) (l : List T) :
    ordered_insert x (ordered_insert x l) = ordered_insert x l := by
  induction l with
  | nil => simp [ordered_insert]
  | cons y rest ih =>
    by_cases h1 : x < y
    · simp [ordered_insert, h1]
    · by_cases h2 : x = y
      · simp [ordered_insert, h2]
      · simp [ordered_insert, h1, h2, ih]

theorem ordered_insert_of_mem {T : Type} [LinearOrder T] (x : T) (l : List T)
    (hwf : l.Pairwise (fun a b => a < b)) (hmem : x ∈ l) : ordered_insert x l = l := by
  induction l with
  | nil => simp at hmem
  | cons y rest ih =>
    have hwf' := List.pairwise_cons.mp hwf
    rcases List.mem_cons.mp hmem with h | h
    · simp [ordered_insert, h]
    · have hlt : y < x := hwf'.1 x h
      simp [ordered_insert, not_lt.mpr (le_of_lt hlt), ne_of_gt hlt, ih hwf'.2 h]

/-- C10: for a set `s` and an item `x`, `set_insert(s, x)` twice yields the
same set as `set_insert(s, x)` once, so `container_size` is unchanged by the
second insert; and `set_insert(s, x)` leaves `s` as it is when `x` is already
in `s`. -/
theorem set_insert_idempotent {T A : Type} [LinearOrder T] (s : StdSet T A) (x : T)
    (hwf : s.WF) :
    set_insert (set_insert s x) x = set_insert s x
    ∧ container_size (set_insert (set_insert s x) x) = container_size (set_insert s x)
    ∧ (x ∈ s.items → set_insert s x = s) := by
  have h : set_insert (set_insert s x) x = set_insert s x := by
    simp [set_insert, StdSet.insert, ordered_insert_idem]
  refine ⟨h, by rw [h], fun hmem => ?_⟩
  simp [set_insert, StdSet.insert, ordered_insert_of_mem x s.items hwf hmem]

/-- C10 at the set `{1, 3, 5}`: inserting `4` twice, and inserting `3`. -/
theorem set_insert_idempotent_witness :
    example_set.WF
    ∧ set_insert (set_insert example_set 4) 4 = set_insert example_set 4
    ∧ container_size (set_insert (set_insert example_set 4) 4)
        = container_size (set_insert example_set 4)
    ∧ set_insert example_set 3 = example_set :=
  ⟨by decide, (set_insert_idempotent example_set 4 (by decide)).1,
    (set_insert_idempotent example_set 4 (by decide)).2.1,
    (set_insert_idempotent example_set 3 (by decide)).2.2 (by decide)⟩

theorem ordered_insert_perm {T : Type} [LinearOrder T] (x : T) (l : List T) (habs : x ∉ l) :
    (ordered_insert x l).Perm (x :: l) := by
  induction l with
  | nil => simp [ordered_insert]
  | cons y rest ih =>
    have hne : ¬ x = y := fun h => habs (h ▸ List.mem_cons_self _ _)
    have ih := ih (fun h => habs (List.mem_cons_of_mem _ h))
    unfold ordered_insert
    split_ifs with h1
    · exact List.Perm.refl _
    · exact (List.Perm.cons y ih).trans (List.Perm.swap x y rest)

theorem ordered_insert_mem {T : Type} [LinearOrder T] (x : T) (l : List T) (y : T)
    (hy : y ∈ ordered_insert x l) : y = x ∨ y ∈ l := by
  induction l with
  | nil => simpa [ordered_insert] using hy
  | cons z rest ih =>
    unfold ordered_insert at hy
    split_ifs at hy with h1 h2
    · simpa using hy
    · exact Or.inr hy
    · rcases List.mem_cons.mp hy with h | h
      · exact Or.inr (h ▸ List.mem_cons_self _ _)
      · rcases ih h with h | h
        · exact Or.inl h
        · exact Or.inr (List.mem_cons_of_mem _ h)

theorem ordered_insert_pairwise {T : Type} [LinearOrder T] (x : T) (l : List T)
    (hwf : l.Pairwise (fun a b => a < b)) :
    (ordered_insert x l).Pairwise (fun a b => a < b) := by
  induction l with
  | nil => simp [ordered_insert]
  | cons z rest ih =>
    have hwf' := List.pairwise_cons.mp hwf
    unfold ordered_insert
    split_ifs with h1 h2
    · refine List.pairwise_cons.mpr ⟨?_, hwf⟩
      intro y hy
      rcases List.mem_cons.mp hy with h | h
      · exact h ▸ h1
      · exact lt_trans h1 (hwf'.1 y h)
    · exact hwf
    · refine List.pairwise_cons.mpr ⟨?_, ih hwf'.2⟩
      intro y hy
      rcases ordered_insert_mem x rest y hy with h | h
      · rw [h]
        exact lt_of_le_of_ne (not_lt.mp h1) (fun h => h2 h.symm)
      · exact hwf'.1 y h

/-- C11, amended: for a set `s` and an item `x` not in `s`, `set_insert(s, x)`
yields the set, with the same allocator and in order, whose items are exactly
those of `s` together with `x`: every item of `s` is kept, the number of items
grows by exactly one, and `container_size` grows by one modulo `2 ^ 32` (by
exactly one when the new number of items is below `2 ^ 32`). -/
theorem set_insert_absent {T A : Type} [LinearOrder T] (s : StdSet T A) (x : T)
    (hwf : s.WF) (habs : x ∉ s.items) :
    (set_insert s x).allocator = s.allocator
    ∧ (set_insert s x).WF
    ∧ (∀ y, y ∈ (set_insert s x).items ↔ y = x ∨ y ∈ s.items)
    ∧ (set_insert s x).items.Perm (x :: s.items)
    ∧ (set_insert s x).items.length = s.items.length + 1
    ∧ container_size (set_insert s x) = (container_size s + 1) % 2 ^ 32
    ∧ (s.items.length + 1 < 2 ^ 32 → container_size (set_insert s x) = container_size s + 1) := by
  have hperm : (set_insert s x).items.Perm (x :: s.items) := ordered_insert_perm x s.items habs
  have hlen : (set_insert s x).items.length = s.items.length + 1 := by
    simpa using hperm.length_eq
  refine ⟨rfl, ordered_insert_pairwise x s.items hwf, ?_, hperm, hlen, ?_, ?_⟩
  · intro y
    rw [hperm.mem_iff, List.mem_cons]
  · simp only [container_size, to_uint32, StlContainer.size, hlen]
    omega
  · intro hsmall
    simp only [container_size, to_uint32, StlContainer.size, hlen]
    omega

/-- The amended C11 at the set `{1, 3, 5}` and the item `4`. -/
theorem set_insert_absent_witness :
    (set_insert example_set 4).allocator = example_set.allocator
    ∧ (set_insert example_set 4).WF
    ∧ (∀ y, y ∈ (set_insert example_set 4).items ↔ y = 4 ∨ y ∈ example_set.items)
    ∧ (set_insert example_set 4).items.Perm (4 :: example_set.items)
    ∧ (set_insert example_set 4).items.length = example_set.items.length + 1
    ∧ container_size (set_insert example_set 4) = (container_size example_set + 1) % 2 ^ 32
    ∧ (example_set.items.length + 1 < 2 ^ 32 →
        container_size (set_insert example_set 4) = container_size example_set + 1) :=
  set_insert_absent example_set 4 (by decide) (by decide)

/-! ## Enumerators -/

theorem next_n_const_enumerator {E : Type} (range : List E) (n i : Nat) (h : i + n ≤ range.length) :
    next_n const_enumerator.next n ⟨range, i, range.length⟩
      = some ((range.drop i).take n, ⟨range, i + n, range.length⟩) := by
  induction n generalizing i with
  | zero => simp [next_n]
  | succ n ih =>
    have hi : i < range.length := by omega
    have hd : range.drop i = range[i] :: range.drop (i + 1) := List.drop_eq_getElem_cons hi
    simp only [next_n, const_enumerator.next, List.getElem?_eq_getElem hi, Option.map_some']
    rw [ih (i + 1) (by omega)]
    simp only [Option.map_some']
    rw [hd, List.take_succ_cons, Nat.add_assoc, Nat.add_comm 1 n]

theorem next_n_enumerator {E : Type} (range : List E) (n i : Nat) (h : i + n ≤ range.length) :
    next_n enumerator.next n ⟨range, i, range.length⟩
      = some ((range.drop i).take n, ⟨range, i + n, range.length⟩) := by
  induction n generalizing i with
  | zero => simp [next_n]
  | succ n ih =>
    have hi : i < range.length := by omega
    have hd : range.drop i = range[i] :: range.drop (i + 1) := List.drop_eq_getElem_cons hi
    simp only [next_n, enumerator.next, List.getElem?_eq_getElem hi, Option.map_some']
    rw [ih (i + 1) (by omega)]
    simp only [Option.map_some']
    rw [hd, List.take_succ_cons, Nat.add_assoc, Nat.add_comm 1 n]

/-- C12: over a sequence `c` of `k` elements, for the read-only and for the
mutable enumerator, `i ≤ k` successive `next()` calls yield the first `i`
elements of `c` in order and leave an enumerator whose `more()` is true exactly
when `i < k`; so `more()` is true before each of `k` calls, the `k` calls yield
the elements of `c` in container order, and `more()` is false after them. -/
theorem enumerator_yields_in_order {A E : Type} (c : Sequence A E) (i : Nat)
    (hi : i ≤ c.elems.length) :
    (∃ e, next_n const_enumerator.next i (const_enumerator.new c) = some (c.elems.take i, e)
        ∧ e.more = decide (i < c.elems.length))
    ∧ (∃ e, next_n enumerator.next i (enumerator.new c) = some (c.elems.take i, e)
        ∧ e.more = decide (i < c.elems.length))
    ∧ (∃ e, next_n const_enumerator.next c.elems.length (const_enumerator.new c)
          = some (c.elems, e) ∧ e.more = false)
    ∧ (∃ e, next_n enumerator.next c.elems.length (enumerator.new c)
          = some (c.elems, e) ∧ e.more = false) := by
  have h1 := next_n_const_enumerator c.elems i 0 (by omega)
  have h2 := next_n_enumerator c.elems i 0 (by omega)
  have h3 := next_n_const_enumerator c.elems c.elems.length 0 (by omega)
  have h4 := next_n_enumerator c.elems c.elems.length 0 (by omega)
  simp only [List.drop_zero, Nat.zero_add, List.take_length] at h1 h2 h3 h4
  refine ⟨⟨_, h1, ?_⟩, ⟨_, h2, ?_⟩, ⟨_, h3, ?_⟩, ⟨_, h4, ?_⟩⟩
  · by_cases h : i < c.elems.length
    · simp [const_enumerator.more, h, Nat.ne_of_lt h]
    · simp [const_enumerator.more, h, Nat.le_antisymm hi (not_lt.mp h)]
  · by_cases h : i < c.elems.length
    · simp [enumerator.more, h, Nat.ne_of_lt h]
    · simp [enumerator.more, h, Nat.le_antisymm hi (not_lt.mp h)]
  · simp [const_enumerator.more]
  · simp [enumerator.more]

/-- C12 over the sequence `[10, 20, 30]`: three `next()` calls yield `10`,
`20`, `30`, and `more()` is false afterwards; after one call `more()` is still
true. -/
theorem enumerator_yields_in_order_witness :
    (∃ e, next_n const_enumerator.next 3 (const_enumerator.new example_sequence_10_20_30)
          = some ([10, 20, 30], e) ∧ e.more = false)
    ∧ (∃ e, next_n enumerator.next 3 (enumerator.new example_sequence_10_20_30)
          = some ([10, 20, 30], e) ∧ e.more = false)
    ∧ (∃ e, next_n const_enumerator.next 1 (const_enumerator.new example_sequence_10_20_30)
          = some ([10], e) ∧ e.more = true) :=
  ⟨(enumerator_yields_in_order example_sequence_10_20_30 3 (by decide)).2.2.1,
    (enumerator_yields_in_order example_sequence_10_20_30 3 (by decide)).2.2.2,
    (enumerator_yields_in_order example_sequence_10_20_30 1 (by decide)).1⟩

/-! ## Map inversion -/

theorem entries_assign_mem_iff {K V : Type} [LinearOrder K] (kv : K × V) (l : List (K × V))
    (hwf : l.Pairwise (fun a b => a.1 < b.1)) (x : K × V) :
    x ∈ entries_assign kv l ↔ x = kv ∨ (x ∈ l ∧ x.1 ≠ kv.1) := by
  induction l with
  | nil => simp [entries_assign]
  | cons e rest ih =>
    have hwf' := List.pairwise_cons.mp hwf
    have ih := ih hwf'.2
    unfold entries_assign
    split_ifs with h1 h2
    · simp only [List.mem_cons]
      constructor
      · rintro (h | h | h)
        · exact Or.inl h
        · exact Or.inr ⟨Or.inl h, by rw [h]; exact ne_of_gt h1⟩
        · exact Or.inr ⟨Or.inr h, ne_of_gt (lt_trans h1 (hwf'.1 x h))⟩
      · rintro (h | ⟨h, -⟩)
        · exact Or.inl h
        · exact Or.inr h
    · have hkv : (e.1, kv.2) = kv := Prod.ext h2.symm rfl
      rw [hkv]
      simp only [List.mem_cons]
      constructor
      · rintro (h | h)
        · exact Or.inl h
        · exact Or.inr ⟨Or.inr h, by rw [h2]; exact ne_of_gt (hwf'.1 x h)⟩
      · rintro (h | ⟨h | h, hne⟩)
        · exact Or.inl h
        · exact absurd (by rw [h, h2]) hne
        · exact Or.inr h
    · have hlt : e.1 < kv.1 := lt_of_le_of_ne (not_lt.mp h1) (fun h => h2 h.symm)
      simp only [List.mem_cons, ih]
      constructor
      · rintro (h | h | ⟨h, hne⟩)
        · exact Or.inr ⟨Or.inl h, by rw [h]; exact ne_of_lt hlt⟩
        · exact Or.inl h
        · exact Or.inr ⟨Or.inr h, hne⟩
      · rintro (h | ⟨h | h, hne⟩)
        · exact Or.inr (Or.inl h)
        · exact Or.inl h
        · exact Or.inr (Or.inr ⟨h, hne⟩)

theorem entries_assign_pairwise {K V : Type} [LinearOrder K] (kv : K × V) (l : List (K × V))
    (hwf : l.Pairwise (fun a b => a.1 < b.1)) :
    (entries_assign kv l).Pairwise (fun a b => a.1 < b.1) := by
  induction l with
  | nil => simp [entries_assign]
  | cons e rest ih =>
    have hwf' := List.pairwise_cons.mp hwf
    unfold entries_assign
    split_ifs with h1 h2
    · refine List.pairwise_cons.mpr ⟨?_, hwf⟩
      intro x hx
      rcases List.mem_cons.mp hx with h | h
      · exact h ▸ h1
      · exact lt_trans h1 (hwf'.1 x h)
    · exact List.pairwise_cons.mpr ⟨fun x hx => hwf'.1 x hx, hwf'.2⟩
    · refine List.pairwise_cons.mpr ⟨?_, ih hwf'.2⟩
      intro x hx
      rcases (entries_assign_mem_iff kv rest hwf'.2 x).mp hx with h | ⟨h, -⟩
      · rw [h]
        exact lt_of_le_of_ne (not_lt.mp h1) (fun h => h2 h.symm)
      · exact hwf'.1 x h

theorem reverse_map_entries_aux {K V : Type} [LinearOrder V] (l : List (K × V))
    (acc : StdMap V K Unit) :
    (l.foldl (fun reversed it => reversed.assign it.2 it.1) acc).entries
      = l.foldl (fun r it => entries_assign (it.2, it.1) r) acc.entries := by
  induction l generalizing acc with
  | nil => rfl
  | cons e rest ih =>
    simp only [List.foldl_cons]
    rw [ih]
    rfl

theorem reverse_map_entries {K V : Type} [LinearOrder K] [LinearOrder V] (m : StdMap K V Unit) :
    (reverse_map m).entries
      = m.entries.foldl (fun r it => entries_assign (it.2, it.1) r) [] :=
  reverse_map_entries_aux m.entries ⟨(), []⟩

theorem reversed_pairwise {K V : Type} [LinearOrder V] (l : List (K × V))
    (acc : List (V × K)) (hacc : acc.Pairwise (fun a b => a.1 < b.1)) :
    (l.foldl (fun r it => entries_assign (it.2, it.1) r) acc).Pairwise
      (fun a b => a.1 < b.1) := by
  induction l generalizing acc with
  | nil => exact hacc
  | cons e rest ih =>
    simp only [List.foldl_cons]
    exact ih _ (entries_assign_pairwise _ _ hacc)

theorem reversed_snoc_mem {K V : Type} [LinearOrder V] (l : List (K × V)) (e : K × V)
    (x : V × K) :
    x ∈ (l ++ [e]).foldl (fun r it => entries_assign (it.2, it.1) r) []
      ↔ x = (e.2, e.1)
        ∨ (x ∈ l.foldl (fun r it => entries_assign (it.2, it.1) r) [] ∧ x.1 ≠ e.2) := by
  rw [List.foldl_append, List.foldl_cons, List.foldl_nil]
  exact entries_assign_mem_iff _ _ (reversed_pairwise l [] List.Pairwise.nil) x

theorem reversed_mem_iff {K V : Type} [LinearOrder K] [LinearOrder V] (l : List (K × V))
    (hwf : l.Pairwise (fun a b => a.1 < b.1)) (v : V) (k : K) :
    (v, k) ∈ l.foldl (fun r it => entries_assign (it.2, it.1) r) []
      ↔ (k, v) ∈ l ∧ ∀ k', (k', v) ∈ l → k' ≤ k := by
  induction l using List.reverseRecOn generalizing v k with
  | nil => simp
  | append_singleton l e ih =>
    obtain ⟨hl, -, hlast⟩ := List.pairwise_append.mp hwf
    have hlt : ∀ a ∈ l, a.1 < e.1 := fun a ha => hlast a ha e (List.mem_singleton_self e)
    rw [reversed_snoc_mem, ih hl]
    constructor
    · rintro (h | ⟨⟨hmem, hmax⟩, hne⟩)
      · have h1 : v = e.2 := congrArg Prod.fst h
        have h2 : k = e.1 := congrArg Prod.snd h
        subst h1 h2
        refine ⟨by simp, fun k' hk' => ?_⟩
        rcases List.mem_append.mp hk' with h | h
        · exact le_of_lt (hlt _ h)
        · exact le_of_eq (congrArg Prod.fst (List.mem_singleton.mp h))
      · refine ⟨List.mem_append_left _ hmem, fun k' hk' => ?_⟩
        rcases List.mem_append.mp hk' with h | h
        · exact hmax k' h
        · exact absurd (congrArg Prod.snd (List.mem_singleton.mp h)) hne
    · rintro ⟨hmem, hmax⟩
      by_cases hv : v = e.2
      · left
        have hk : e.1 ≤ k := hmax e.1 (by rw [hv]; simp)
        rcases List.mem_append.mp hmem with h | h
        · exact absurd (hlt _ h) (not_lt.mpr hk)
        · rw [← List.mem_singleton.mp h]
      · right
        rcases List.mem_append.mp hmem with h | h
        · exact ⟨⟨h, fun k' hk' => hmax k' (List.mem_append_left _ hk')⟩, hv⟩
        · exact absurd (congrArg Prod.snd (List.mem_singleton.mp h)) hv

theorem reversed_values_iff {K V : Type} [LinearOrder V] (l : List (K × V)) (v : V) :
    (∃ k, (v, k) ∈ l.foldl (fun r it => entries_assign (it.2, it.1) r) [])
      ↔ ∃ k, (k, v) ∈ l := by
  induction l using List.reverseRecOn with
  | nil => simp
  | append_singleton l e ih =>
    simp only [reversed_snoc_mem, List.mem_append, List.mem_singleton]
    constructor
    · rintro ⟨k, h | ⟨h, -⟩⟩
      · exact ⟨e.1, Or.inr (Prod.ext rfl (congrArg Prod.fst h))⟩
      · obtain ⟨k', hk'⟩ := ih.mp ⟨k, h⟩
        exact ⟨k', Or.inl hk'⟩
    · rintro ⟨k, h | h⟩
      · by_cases hv : v = e.2
        · exact ⟨e.1, Or.inl (by rw [hv])⟩
        · obtain ⟨k', hk'⟩ := ih.mpr ⟨k, h⟩
          exact ⟨k', Or.inr ⟨hk', hv⟩⟩
      · exact ⟨e.1, Or.inl (by rw [← h])⟩

theorem mapped_at_const_eq_ok_iff {K V A : Type} [LinearOrder K] (m : StdMap K V A)
    (hwf : m.WF) (k : K) (v : V) :
    mapped_at_const m k = .ok v ↔ (k, v) ∈ m.entries := by
  constructor
  · intro h
    unfold mapped_at_const at h
    cases hf : m.find k with
    | none => simp [hf, ElementNotFoundException] at h
    | some e =>
      simp only [hf, Except.ok.injEq] at h
      have hm := List.mem_of_find?_eq_some hf
      have hk : e.1 = k := by simpa using List.find?_some hf
      have : e = (k, v) := Prod.ext hk h
      exact this ▸ hm
  · exact fun h => mapped_at_const_of_mem hwf h

theorem StdMap.eq_of_entries_eq {K V : Type} (a b : StdMap K V Unit)
    (h : a.entries = b.entries) : a = b := by
  cases a
  cases b
  simp_all

theorem nodup_of_keys_ascending {K V : Type} [LinearOrder K] {l : List (K × V)}
    (hwf : l.Pairwise (fun a b => a.1 < b.1)) : l.Nodup :=
  List.Pairwise.imp (fun {a b} (h : a.1 < b.1) (hab : a = b) => absurd (hab ▸ h) (lt_irrefl _)) hwf

theorem reverse_map_wf {K V : Type} [LinearOrder K] [LinearOrder V] (m : StdMap K V Unit) :
    (reverse_map m).WF := by
  unfold StdMap.WF
  rw [reverse_map_entries]
  exact reversed_pairwise m.entries [] List.Pairwise.nil

theorem reverse_map_mem_iff {K V : Type} [LinearOrder K] [LinearOrder V] (m : StdMap K V Unit)
    (hwf : m.WF) (v : V) (k : K) :
    (v, k) ∈ (reverse_map m).entries
      ↔ (k, v) ∈ m.entries ∧ ∀ k', (k', v) ∈ m.entries → k' ≤ k := by
  rw [reverse_map_entries]
  exact reversed_mem_iff m.entries hwf v k

theorem reverse_map_mem_iff_of_injective {K V : Type} [LinearOrder K] [LinearOrder V]
    (m : StdMap K V Unit) (hwf : m.WF)
    (hinj : ∀ k k' v, (k, v) ∈ m.entries → (k', v) ∈ m.entries → k = k') (v : V) (k : K) :
    (v, k) ∈ (reverse_map m).entries ↔ (k, v) ∈ m.entries := by
  rw [reverse_map_mem_iff m hwf]
  exact ⟨fun h => h.1, fun h => ⟨h, fun k' hk' => le_of_eq (hinj k' k v hk' h)⟩⟩

theorem reverse_map_perm_of_injective {K V : Type} [LinearOrder K] [LinearOrder V]
    (m : StdMap K V Unit) (hwf : m.WF)
    (hinj : ∀ k k' v, (k, v) ∈ m.entries → (k', v) ∈ m.entries → k = k') :
    (reverse_map m).entries.Perm (m.entries.map Prod.swap) := by
  rw [List.perm_ext_iff_of_nodup (nodup_of_keys_ascending (reverse_map_wf m))
    ((nodup_of_keys_ascending hwf).map Prod.swap_injective)]
  rintro ⟨v, k⟩
  rw [reverse_map_mem_iff_of_injective m hwf hinj]
  simp [List.mem_map]

/-- C14: for a map `m` in which no two keys map to the same value,
`reverse_map(m)` is the map that contains `v -> k` exactly when `m` contains
`k -> v`, and it has as many entries as `m`. -/
theorem reverse_map_of_injective {K V : Type} [LinearOrder K] [LinearOrder V]
    (m : StdMap K V Unit) (hwf : m.WF)
    (hinj : ∀ k k' v, (k, v) ∈ m.entries → (k', v) ∈ m.entries → k = k') :
    (reverse_map m).WF
    ∧ (∀ v k, (v, k) ∈ (reverse_map m).entries ↔ (k, v) ∈ m.entries)
    ∧ (∀ v k, mapped_at_const (reverse_map m) v = .ok k ↔ mapped_at_const m k = .ok v)
    ∧ (reverse_map m).entries.length = m.entries.length
    ∧ container_size (reverse_map m) = container_size m := by
  have hmem := reverse_map_mem_iff_of_injective m hwf hinj
  have hlen : (reverse_map m).entries.length = m.entries.length := by
    simpa using (reverse_map_perm_of_injective m hwf hinj).length_eq
  refine ⟨reverse_map_wf m, hmem, fun v k => ?_, hlen, ?_⟩
  · rw [mapped_at_const_eq_ok_iff _ (reverse_map_wf m), mapped_at_const_eq_ok_iff _ hwf, hmem]
  · simp only [container_size, StlContainer.size, hlen]

/-- C14 at the map `{1: "x", 2: "y"}`, whose inverse is `{"x": 1, "y": 2}`. -/
theorem reverse_map_of_injective_witness :
    example_map_xy.WF
    ∧ ((reverse_map example_map_xy).WF
      ∧ (∀ v k, (v, k) ∈ (reverse_map example_map_xy).entries
          ↔ (k, v) ∈ example_map_xy.entries)
      ∧ (∀ v k, mapped_at_const (reverse_map example_map_xy) v = .ok k
          ↔ mapped_at_const example_map_xy k = .ok v)
      ∧ (reverse_map example_map_xy).entries.length = example_map_xy.entries.length
      ∧ container_size (reverse_map example_map_xy) = container_size example_map_xy)
    ∧ reverse_map example_map_xy = ⟨(), [("x", 1), ("y", 2)]⟩ := by
  have hlt : ¬ ("y" < "x") := by
    rw [String.lt_iff_toList_lt]
    decide
  refine ⟨by decide, reverse_map_of_injective example_map_xy (by decide) ?_, ?_⟩
  · intro k k' v h h'
    simp only [example_map_xy, List.mem_cons, Prod.mk.injEq, List.mem_singleton,
      List.not_mem_nil, or_false] at h h'
    rcases h with ⟨rfl, rfl⟩ | ⟨rfl, rfl⟩ <;> rcases h' with ⟨rfl, h'⟩ | ⟨rfl, h'⟩ <;>
      first | rfl | exact absurd h' (by decide)
  · simp [reverse_map, example_map_xy, StdMap.assign, entries_assign, hlt]

/-- C15: for every map `m`, `reverse_map(m)` is a map with exactly one entry
for each value of `m`: it holds `v -> k` exactly when `m` holds `k -> v` and
`k` is the greatest key of `m` that maps to `v`, the last one in the iteration
order of `m`. -/
theorem reverse_map_last_wins {K V : Type} [LinearOrder K] [LinearOrder V]
    (m : StdMap K V Unit) (hwf : m.WF) :
    (reverse_map m).WF
    ∧ (∀ v k, (v, k) ∈ (reverse_map m).entries
        ↔ (k, v) ∈ m.entries ∧ ∀ k', (k', v) ∈ m.entries → k' ≤ k)
    ∧ (∀ v, (∃ k, (v, k) ∈ (reverse_map m).entries) ↔ ∃ k, (k, v) ∈ m.entries)
    ∧ (∀ v k k', (v, k) ∈ (reverse_map m).entries → (v, k') ∈ (reverse_map m).entries
        → k = k') := by
  refine ⟨reverse_map_wf m, reverse_map_mem_iff m hwf, fun v => ?_, fun v k k' h h' => ?_⟩
  · rw [reverse_map_entries]
    exact reversed_values_iff m.entries v
  · have h1 := StdMap.find_of_mem (reverse_map_wf m) h
    have h2 := StdMap.find_of_mem (reverse_map_wf m) h'
    rw [h1] at h2
    exact congrArg Prod.snd (Option.some.inj h2)

/-- C15 at the map `{1: "x", 2: "x"}`, whose inverse is the single-entry map
`{"x": 2}`. -/
theorem reverse_map_last_wins_witness :
    example_map_xx.WF
    ∧ ((reverse_map example_map_xx).WF
      ∧ (∀ v k, (v, k) ∈ (reverse_map example_map_xx).entries
          ↔ (k, v) ∈ example_map_xx.entries
            ∧ ∀ k', (k', v) ∈ example_map_xx.entries → k' ≤ k)
      ∧ (∀ v, (∃ k, (v, k) ∈ (reverse_map example_map_xx).entries)
          ↔ ∃ k, (k, v) ∈ example_map_xx.entries)
      ∧ (∀ v k k', (v, k) ∈ (reverse_map example_map_xx).entries
          → (v, k') ∈ (reverse_map example_map_xx).entries → k = k'))
    ∧ reverse_map example_map_xx = ⟨(), [("x", 2)]⟩ :=
  ⟨by decide, reverse_map_last_wins example_map_xx (by decide),
    by simp [reverse_map, example_map_xx, StdMap.assign, entries_assign]⟩

/-- C19: for a map `m` in which no two keys share a value,
`reverse_map(reverse_map(m)) = m`; and for every map `m`, each entry `v -> k`
of `reverse_map(m)` satisfies `m[k] = v`. -/
theorem reverse_map_involution {K V : Type} [LinearOrder K] [LinearOrder V]
    (m : StdMap K V Unit) (hwf : m.WF) :
    ((∀ k k' v, (k, v) ∈ m.entries → (k', v) ∈ m.entries → k = k') →
      reverse_map (reverse_map m) = m)
    ∧ (∀ v k, (v, k) ∈ (reverse_map m).entries → mapped_at_const m k = .ok v) := by
  refine ⟨fun hinj => ?_, fun v k h =>
    mapped_at_const_of_mem hwf ((reverse_map_mem_iff m hwf v k).mp h).1⟩
  have hmem := reverse_map_mem_iff_of_injective m hwf hinj
  have hwf' := reverse_map_wf m
  have hinj' : ∀ v v' k, (v, k) ∈ (reverse_map m).entries → (v', k) ∈ (reverse_map m).entries
      → v = v' := by
    intro v v' k h h'
    have h1 := StdMap.find_of_mem hwf ((hmem v k).mp h)
    have h2 := StdMap.find_of_mem hwf ((hmem v' k).mp h')
    rw [h1] at h2
    exact congrArg Prod.snd (Option.some.inj h2)
  have hmem' := reverse_map_mem_iff_of_injective (reverse_map m) hwf' hinj'
  apply StdMap.eq_of_entries_eq
  have hperm : (reverse_map (reverse_map m)).entries.Perm m.entries := by
    rw [List.perm_ext_iff_of_nodup (nodup_of_keys_ascending (reverse_map_wf _))
      (nodup_of_keys_ascending hwf)]
    rintro ⟨k, v⟩
    rw [hmem', hmem]
  exact @List.eq_of_perm_of_sorted _ (fun a b : K × V => a.1 < b.1)
    ⟨fun a b h1 h2 => absurd h1 (lt_asymm h2)⟩ _ _ hperm (reverse_map_wf _) hwf

/-- C19 at the map `{1: "x", 2: "y"}`. -/
theorem reverse_map_involution_witness :
    example_map_xy.WF
    ∧ reverse_map (reverse_map example_map_xy) = example_map_xy
    ∧ (∀ v k, (v, k) ∈ (reverse_map example_map_xy).entries
        → mapped_at_const example_map_xy k = .ok v) := by
  refine ⟨by decide, (reverse_map_involution example_map_xy (by decide)).1 ?_,
    (reverse_map_involution example_map_xy (by decide)).2⟩
  intro k k' v h h'
  simp only [example_map_xy, List.mem_cons, Prod.mk.injEq, List.mem_singleton,
    List.not_mem_nil, or_false] at h h'
  rcases h with ⟨rfl, rfl⟩ | ⟨rfl, rfl⟩ <;> rcases h' with ⟨rfl, h'⟩ | ⟨rfl, h'⟩ <;>
    first | rfl | exact absurd h' (by decide)

/-! ## Bit-packed boolean sequences -/

theorem use_container_allocator_vector_bool (cfg : Config) (a : CppType) :
    use_container_allocator_for_elements cfg (.vector .bool a) = some false := by
  cases cfg with
  | mk b =>
    cases b <;>
      simp [use_container_allocator_for_elements, allocator_type, element_type, value_type,
        legacy_allocator_trait, rebind_compatible, has_schema, uses_allocator]

/-- C13: for a `std::vector<bool, A>`, `resize_list` to length `n` on a
sequence `seq₀` whose elements are all false (or that is empty) yields `n`
false values; and `modify_element` on the slot at index `i` of a sequence
`seq`, with a writer that produces `b`, sets slot `i` to `b` and leaves every
other slot, the length and the allocator unchanged. -/
theorem vector_bool_resize_modify {A σ : Type} (cfg : Config) (a : CppType)
    (seq₀ seq : Sequence A Bool) (n i : Nat) (b : Bool) (deserialize : σ → Bool × σ) (s : σ)
    (hdef : ∀ x ∈ seq₀.elems, x = false) (hi : i < seq.elems.length)
    (hb : (deserialize s).1 = b) :
    resize_list cfg (.vector .bool a) (bool_ctors A) seq₀ n
        = some ⟨seq₀.allocator, List.replicate n false⟩
    ∧ (modify_element seq i deserialize s).1.elems[i]? = some b
    ∧ (∀ j, j ≠ i → (modify_element seq i deserialize s).1.elems[j]? = seq.elems[j]?)
    ∧ (modify_element seq i deserialize s).1.elems.length = seq.elems.length
    ∧ (modify_element seq i deserialize s).1.allocator = seq.allocator := by
  refine ⟨?_, ?_, ?_, ?_, rfl⟩
  · have hT := use_container_allocator_vector_bool cfg a
    have hall : seq₀.elems.take n ++ List.replicate (n - seq₀.elems.length) false
        = List.replicate n false := by
      refine List.eq_replicate_iff.mpr ⟨?_, fun x hx => ?_⟩
      · simp only [List.length_append, List.length_take, List.length_replicate]
        omega
      · rcases List.mem_append.mp hx with h | h
        · exact hdef x (List.mem_of_mem_take h)
        · exact (List.mem_replicate.mp h).2
    rw [resize_list, hT]
    simp only [make_element_default (bool_ctors A) seq₀ hT, Option.map_some', Sequence.resize]
    exact congrArg (fun l => some (Sequence.mk seq₀.allocator l)) hall
  · simp [modify_element, hb, hi]
  · intro j hj
    simp [modify_element, List.getElem?_set_ne (Ne.symm hj)]
  · simp [modify_element]

/-- C13 at the empty `std::vector<bool>`: resizing to `5` gives five false
values; `modify_element` at index `2` with a writer producing `true`, and then
draining a `const_enumerator`, yields `[false, false, true, false, false]`. -/
theorem vector_bool_resize_modify_witness :
    resize_list ⟨false⟩ example_vector_of_bool (bool_ctors Unit) example_empty_bool_vector 5
        = some ⟨(), [false, false, false, false, false]⟩
    ∧ (modify_element (⟨(), [false, false, false, false, false]⟩ : Sequence Unit Bool) 2
          (fun s : Unit => (true, s)) ()).1.elems[2]? = some true
    ∧ drain const_enumerator_vector_bool.more const_enumerator_vector_bool.next 5
        (const_enumerator_vector_bool.new
          (modify_element (⟨(), [false, false, false, false, false]⟩ : Sequence Unit Bool) 2
            (fun s : Unit => (true, s)) ()).1)
        = some [false, false, true, false, false] :=
  have h := vector_bool_resize_modify ⟨false⟩ (.std_allocator .bool) example_empty_bool_vector
    (⟨(), [false, false, false, false, false]⟩ : Sequence Unit Bool) 5 2 true
    (fun s : Unit => (true, s)) () (by decide) (by decide) rfl
  ⟨h.1, h.2.1, by decide⟩

/-! ## Construction -/

/-- C16: `make_element`, `make_key` and `make_value` read nothing of the
container but its allocator: on two containers of the same type with the same
allocator, whatever their contents, each returns the same value.  (The
functions yield only the constructed value: no statement of their bodies acts
on the container.) -/
theorem make_functions_read_allocator_only {C M A E K V : Type} [StlContainer C A]
    [StlContainer M A] (cfg : Config) (T TM : CppType) (ce : Constructors A E)
    (ck : Constructors A K) (cv : Constructors A V) (c₁ c₂ : C) (m₁ m₂ : M)
    (hc : StlContainer.get_allocator c₁ = StlContainer.get_allocator c₂)
    (hm : StlContainer.get_allocator m₁ = StlContainer.get_allocator m₂) :
    make_element cfg T ce c₁ = make_element cfg T ce c₂
    ∧ make_key TM ck m₁ = make_key TM ck m₂
    ∧ make_value cfg TM cv m₁ = make_value cfg TM cv m₂ := by
  simp only [make_element, make_key, make_value, hc, hm, and_self]

/-- C16 at the sequences `[1, 2, 3]` and `[]` of type
`std::vector<std::string>` and at the maps `{1: 10, 3: 30}` and `{}` of type
`std::map<R, R, std::less<R>, Arena<...>>`, all with the allocator `7`: each
function constructs its value from that allocator. -/
theorem make_functions_read_allocator_only_witness :
    (make_element ⟨false⟩ example_vector_of_string example_ctors example_sequence
        = make_element ⟨false⟩ example_vector_of_string example_ctors
            (⟨7, []⟩ : Sequence Nat Nat)
      ∧ make_key example_map_of_arena_records example_ctors example_nat_map
          = make_key example_map_of_arena_records example_ctors (⟨7, []⟩ : StdMap Nat Nat Nat)
      ∧ make_value ⟨false⟩ example_map_of_arena_records example_ctors example_nat_map
          = make_value ⟨false⟩ example_map_of_arena_records example_ctors
              (⟨7, []⟩ : StdMap Nat Nat Nat))
    ∧ make_element ⟨false⟩ example_vector_of_string example_ctors example_sequence = some 8
    ∧ make_key example_map_of_arena_records example_ctors example_nat_map = 8
    ∧ make_value ⟨false⟩ example_map_of_arena_records example_ctors example_nat_map = some 8 :=
  ⟨make_functions_read_allocator_only ⟨false⟩ example_vector_of_string
    example_map_of_arena_records example_ctors example_ctors example_ctors example_sequence
    (⟨7, []⟩ : Sequence Nat Nat) example_nat_map (⟨7, []⟩ : StdMap Nat Nat Nat) rfl rfl,
    by decide, by decide, by decide⟩

/-! ## Lookup after insertion -/

/-- C17: for a map `m` of a type `T` whose value allocator trait has a value,
and a key `k`, the mutable `mapped_at(m, k)` returns a value `v` and a map on
which the read-only `mapped_at` of `k` returns `v` without error; and a
read-only `mapped_at(m, k)` that fails does so on a map that has no entry for
`k`: the lookup yields nothing but its result, and no default is inserted. -/
theorem mapped_at_then_const {K V A : Type} [LinearOrder K] (cfg : Config) (T : CppType)
    (ctors : Constructors A V) (m : StdMap K V A) (k : K) (b : Bool)
    (hwf : m.WF) (hT : use_map_allocator_for_values cfg T = some b) :
    (∃ v m', mapped_at cfg T ctors m k = some (v, m') ∧ mapped_at_const m' k = .ok v)
    ∧ (∀ e, mapped_at_const m k = .error e →
        m.find k = none ∧ (∀ v, (k, v) ∉ m.entries)
        ∧ mapped_at_const m k = .error (.ElementNotFound k)) := by
  constructor
  · obtain ⟨d, hd⟩ := make_value_isSome ctors m hT
    have hwf' : (m.insert (k, d)).1.WF := entries_insert_pairwise (k, d) m.entries hwf
    obtain ⟨hmem, hk⟩ := entries_insert_iterator (k, d) m.entries
    have hmem' : (k, (m.insert (k, d)).2.1.2) ∈ (m.insert (k, d)).1.entries := by
      have : (k, (m.insert (k, d)).2.1.2) = (entries_insert (k, d) m.entries).2.1 :=
        Prod.ext hk.symm rfl
      rw [this]
      exact hmem
    exact ⟨(m.insert (k, d)).2.1.2, (m.insert (k, d)).1, by simp [mapped_at, hd],
      mapped_at_const_of_mem hwf' hmem'⟩
  · intro e he
    have hnone : m.find k = none := by
      unfold mapped_at_const at he
      cases hf : m.find k with
      | none => rfl
      | some x => simp [hf] at he
    refine ⟨hnone, (StdMap.find_eq_none_iff m k).mp hnone, ?_⟩
    simp [mapped_at_const, hnone, ElementNotFoundException]

/-- C17 at the map `{1: 10, 3: 30}` of type `std::map<int, int>` and the key
`2`. -/
theorem mapped_at_then_const_witness :
    (∃ v m', mapped_at ⟨false⟩ example_map_of_int example_ctors example_nat_map 2 = some (v, m')
        ∧ mapped_at_const m' 2 = .ok v)
    ∧ (∀ e, mapped_at_const example_nat_map 2 = .error e →
        example_nat_map.find 2 = none ∧ (∀ v, (2, v) ∉ example_nat_map.entries)
        ∧ mapped_at_const example_nat_map 2 = .error (.ElementNotFound 2)) :=
  mapped_at_then_const ⟨false⟩ example_map_of_int example_ctors example_nat_map 2 false
    (by decide) (by decide)

/-! ## Sizes -/

theorem example_huge_bool_vector_length :
    example_huge_bool_vector.elems.length = 2 ^ 32 :=
  List.length_replicate _ _

theorem example_huge_string_length : example_huge_string.chars.length = 2 ^ 32 :=
  List.length_replicate _ _

/-- C18: `container_size(c)` is the element count of `c` modulo `2 ^ 32`, and
`string_length(s)` the length of `s` modulo `2 ^ 32`: they equal the true count
exactly when it is below `2 ^ 32`, and a larger count is truncated without
any error; a vector of `2 ^ 32` elements has `container_size` `0` and a string
of `2 ^ 32` characters has `string_length` `0`. -/
theorem container_size_truncates {C A Ch B : Type} [StlContainer C A] (c : C)
    (str : BasicString Ch B) :
    container_size c = StlContainer.size c % 2 ^ 32
    ∧ (container_size c = StlContainer.size c ↔ StlContainer.size c < 2 ^ 32)
    ∧ string_length str = str.chars.length % 2 ^ 32
    ∧ (string_length str = str.chars.length ↔ str.chars.length < 2 ^ 32)
    ∧ container_size example_huge_bool_vector = 0
    ∧ string_length example_huge_string = 0 := by
  refine ⟨rfl, ?_, rfl, ?_, ?_, ?_⟩
  · simp only [container_size, to_uint32]
    exact Nat.mod_eq_iff_lt (by norm_num)
  · simp only [string_length, to_uint32]
    exact Nat.mod_eq_iff_lt (by norm_num)
  · show to_uint32 example_huge_bool_vector.elems.length = 0
    rw [example_huge_bool_vector_length]
    exact Nat.mod_self _
  · show to_uint32 example_huge_string.chars.length = 0
    rw [example_huge_string_length]
    exact Nat.mod_self _

/-! ## Draining enumerators -/

theorem drain_const_enumerator {E : Type} (range : List E) (fuel i : Nat)
    (hi : i ≤ range.length) :
    drain const_enumerator.more const_enumerator.next fuel ⟨range, i, range.length⟩
      = if range.length - i ≤ fuel then some (range.drop i) else none := by
  induction fuel generalizing i with
  | zero =>
    by_cases h : i = range.length
    · simp [drain, const_enumerator.more, h]
    · have : ¬ range.length - i ≤ 0 := by omega
      simp [drain, const_enumerator.more, h, this]
  | succ fuel ih =>
    by_cases h : i = range.length
    · simp [drain, const_enumerator.more, h]
    · have hlt : i < range.length := by omega
      have hd : range.drop i = range[i] :: range.drop (i + 1) := List.drop_eq_getElem_cons hlt
      simp only [drain, const_enumerator.more, bne_iff_ne, ne_eq, h, not_false_eq_true,
        if_true, const_enumerator.next, List.getElem?_eq_getElem hlt, Option.map_some']
      rw [ih (i + 1) (by omega), hd]
      by_cases hf : range.length - (i + 1) ≤ fuel
      · have : range.length - i ≤ fuel + 1 := by omega
        simp [hf, this]
      · have : ¬ range.length - i ≤ fuel + 1 := by omega
        simp [hf, this]

theorem drain_const_enumerator_vector_bool (range : List Bool) (fuel i : Nat)
    (hi : i ≤ range.length) :
    drain const_enumerator_vector_bool.more const_enumerator_vector_bool.next fuel
        ⟨range, i, range.length⟩
      = if range.length - i ≤ fuel then some (range.drop i) else none := by
  induction fuel generalizing i with
  | zero =>
    by_cases h : i = range.length
    · simp [drain, const_enumerator_vector_bool.more, h]
    · have : ¬ range.length - i ≤ 0 := by omega
      simp [drain, const_enumerator_vector_bool.more, h, this]
  | succ fuel ih =>
    by_cases h : i = range.length
    · simp [drain, const_enumerator_vector_bool.more, h]
    · have hlt : i < range.length := by omega
      have hd : range.drop i = range[i] :: range.drop (i + 1) := List.drop_eq_getElem_cons hlt
      simp only [drain, const_enumerator_vector_bool.more, bne_iff_ne, ne_eq, h,
        not_false_eq_true, if_true, const_enumerator_vector_bool.next,
        List.getElem?_eq_getElem hlt, Option.map_some']
      rw [ih (i + 1) (by omega), hd]
      by_cases hf : range.length - (i + 1) ≤ fuel
      · have : range.length - i ≤ fuel + 1 := by omega
        simp [hf, this]
      · have : ¬ range.length - i ≤ fuel + 1 := by omega
        simp [hf, this]

theorem drain_enumerator {E : Type} (range : List E) (fuel i : Nat)
    (hi : i ≤ range.length) :
    drain enumerator.more enumerator.next fuel ⟨range, i, range.length⟩
      = if range.length - i ≤ fuel then some (range.drop i) else none := by
  induction fuel generalizing i with
  | zero =>
    by_cases h : i = range.length
    · simp [drain, enumerator.more, h]
    · have : ¬ range.length - i ≤ 0 := by omega
      simp [drain, enumerator.more, h, this]
  | succ fuel ih =>
    by_cases h : i = range.length
    · simp [drain, enumerator.more, h]
    · have hlt : i < range.length := by omega
      have hd : range.drop i = range[i] :: range.drop (i + 1) := List.drop_eq_getElem_cons hlt
      simp only [drain, enumerator.more, bne_iff_ne, ne_eq, h, not_false_eq_true,
        if_true, enumerator.next, List.getElem?_eq_getElem hlt, Option.map_some']
      rw [ih (i + 1) (by omega), hd]
      by_cases hf : range.length - (i + 1) ≤ fuel
      · have : range.length - i ≤ fuel + 1 := by omega
        simp [hf, this]
      · have : ¬ range.length - i ≤ fuel + 1 := by omega
        simp [hf, this]

theorem drain_const_enumerator_new {C A E : Type} [StlContainer C A] [StlRange C A E] (c : C)
    (fuel : Nat) :
    drain const_enumerator.more const_enumerator.next fuel (const_enumerator.new c)
      = if (StlRange.elements c).length ≤ fuel then some (StlRange.elements c) else none := by
  have h := drain_const_enumerator (StlRange.elements c) fuel 0 (Nat.zero_le _)
  simpa only [Nat.sub_zero, List.drop_zero] using h

theorem drain_enumerator_new {C A E : Type} [StlContainer C A] [StlRange C A E] (c : C)
    (fuel : Nat) :
    drain enumerator.more enumerator.next fuel (enumerator.new c)
      = if (StlRange.elements c).length ≤ fuel then some (StlRange.elements c) else none := by
  have h := drain_enumerator (StlRange.elements c) fuel 0 (Nat.zero_le _)
  simpa only [Nat.sub_zero, List.drop_zero] using h

theorem drain_const_enumerator_vector_bool_new {A : Type} (vb : Sequence A Bool) (fuel : Nat) :
    drain const_enumerator_vector_bool.more const_enumerator_vector_bool.next fuel
        (const_enumerator_vector_bool.new vb)
      = if vb.elems.length ≤ fuel then some vb.elems else none := by
  have h := drain_const_enumerator_vector_bool vb.elems fuel 0 (Nat.zero_le _)
  simpa only [Nat.sub_zero, List.drop_zero] using h

/-- C20, as stated, fails: over a `std::vector<bool>` of `2 ^ 32` elements,
`container_size` is `0`, while draining the `const_enumerator` or the
`enumerator` is not over after `container_size` calls of `next()`: it takes
`2 ^ 32` calls and yields `2 ^ 32` values. -/
theorem drain_length_counterexample :
    container_size example_huge_bool_vector = 0
    ∧ drain const_enumerator_vector_bool.more const_enumerator_vector_bool.next
        (container_size example_huge_bool_vector)
        (const_enumerator_vector_bool.new example_huge_bool_vector) = none
    ∧ drain enumerator.more enumerator.next (container_size example_huge_bool_vector)
        (enumerator.new example_huge_bool_vector) = none
    ∧ (∃ l, drain const_enumerator_vector_bool.more const_enumerator_vector_bool.next (2 ^ 32)
          (const_enumerator_vector_bool.new example_huge_bool_vector) = some l
        ∧ l.length = 2 ^ 32 ∧ l.length ≠ container_size example_huge_bool_vector)
    ∧ (∃ l, drain enumerator.more enumerator.next (2 ^ 32)
          (enumerator.new example_huge_bool_vector) = some l
        ∧ l.length = 2 ^ 32 ∧ l.length ≠ container_size example_huge_bool_vector) := by
  have hlen := example_huge_bool_vector_length
  have hlen' : (StlRange.elements example_huge_bool_vector).length = 2 ^ 32 := hlen
  have hsize : container_size example_huge_bool_vector = 0 := by
    show to_uint32 example_huge_bool_vector.elems.length = 0
    rw [hlen]
    exact Nat.mod_self _
  have h1 := drain_const_enumerator_vector_bool_new example_huge_bool_vector 0
  have h2 := drain_enumerator_new example_huge_bool_vector 0
  have h3 := drain_const_enumerator_vector_bool_new example_huge_bool_vector (2 ^ 32)
  have h4 := drain_enumerator_new example_huge_bool_vector (2 ^ 32)
  rw [hlen, if_neg (by norm_num)] at h1
  rw [hlen', if_neg (by norm_num)] at h2
  rw [hlen, if_pos (le_refl _)] at h3
  rw [hlen', if_pos (le_refl _)] at h4
  rw [hsize]
  exact ⟨rfl, h1, h2, ⟨_, h3, hlen, by rw [hlen]; norm_num⟩,
    ⟨_, h4, hlen', by rw [hlen']; norm_num⟩⟩

/-- C20, amended: over every container `c`, draining a `const_enumerator` and
draining an `enumerator` produce the same sequence of values, the elements of
`c` in iteration order, whose length is the element count `c.size()`; the
draining is over after exactly `c.size()` calls of `next()` (it succeeds with
an allowance of `fuel` calls exactly when `c.size() ≤ fuel`); that length is
`container_size(c)` exactly when the count is below `2 ^ 32`; and over a
`std::vector<bool>` the specialised `const_enumerator` produces the same
sequence as the generic `const_enumerator` and the `enumerator`. -/
theorem enumerators_agree {C A E B : Type} [StlContainer C A] [StlRange C A E] (c : C)
    (vb : Sequence B Bool) (fuel : Nat) :
    drain const_enumerator.more const_enumerator.next fuel (const_enumerator.new c)
        = drain enumerator.more enumerator.next fuel (enumerator.new c)
    ∧ drain const_enumerator.more const_enumerator.next fuel (const_enumerator.new c)
        = (if StlContainer.size c ≤ fuel then some (StlRange.elements c) else none)
    ∧ drain const_enumerator.more const_enumerator.next (StlContainer.size c)
        (const_enumerator.new c) = some (StlRange.elements c)
    ∧ drain enumerator.more enumerator.next (StlContainer.size c) (enumerator.new c)
        = some (StlRange.elements c)
    ∧ (StlRange.elements c).length = StlContainer.size c
    ∧ ((StlRange.elements c).length = container_size c ↔ StlContainer.size c < 2 ^ 32)
    ∧ drain const_enumerator_vector_bool.more const_enumerator_vector_bool.next fuel
        (const_enumerator_vector_bool.new vb)
        = drain const_enumerator.more const_enumerator.next fuel (const_enumerator.new vb)
    ∧ drain const_enumerator_vector_bool.more const_enumerator_vector_bool.next fuel
        (const_enumerator_vector_bool.new vb)
        = drain enumerator.more enumerator.next fuel (enumerator.new vb)
    ∧ drain const_enumerator_vector_bool.more const_enumerator_vector_bool.next
        vb.elems.length (const_enumerator_vector_bool.new vb) = some vb.elems := by
  have hsz := StlRange.size_eq c
  have h1 := drain_const_enumerator_new c fuel
  have h2 := drain_enumerator_new c fuel
  have h3 := drain_const_enumerator_new c (StlRange.elements c).length
  have h4 := drain_enumerator_new c (StlRange.elements c).length
  have h5 := drain_const_enumerator_vector_bool_new vb fuel
  have h6 := drain_const_enumerator_new vb fuel
  have h7 := drain_enumerator_new vb fuel
  have h8 := drain_const_enumerator_vector_bool_new vb vb.elems.length
  rw [if_pos (le_refl _)] at h3 h4 h8
  refine ⟨h1.trans h2.symm, by rw [hsz]; exact h1, by rw [hsz]; exact h3,
    by rw [hsz]; exact h4, hsz.symm, ?_, h5.trans h6.symm, h5.trans h7.symm, h8⟩
  simp only [container_size, to_uint32]
  rw [hsz]
  constructor
  · intro h
    exact (Nat.mod_eq_iff_lt (by norm_num)).mp h.symm
  · intro h
    exact (Nat.mod_eq_of_lt h).symm

/-! ## Growth of the 32-bit size -/

theorem example_range_map_length (n : Nat) : (example_range_map n).entries.length = n :=
  (List.length_map _ _).trans (List.length_range n)

theorem example_range_map_wf (n : Nat) : (example_range_map n).WF :=
  List.pairwise_map.mpr (List.pairwise_lt_range n)

theorem example_range_map_absent (n v : Nat) : (n, v) ∉ (example_range_map n).entries := by
  intro h
  obtain ⟨i, hi, heq⟩ := List.mem_map.mp h
  have hlt : i < n := List.mem_range.mp hi
  have : i = n := congrArg Prod.fst heq
  omega

theorem example_range_set_length (n : Nat) : (example_range_set n).items.length = n :=
  List.length_range n

theorem example_range_set_wf (n : Nat) : (example_range_set n).WF :=
  List.pairwise_lt_range n

theorem example_range_set_absent (n : Nat) : n ∉ (example_range_set n).items := by
  intro h
  have hlt : n < n := List.mem_range.mp h
  omega

theorem example_huge_map_length : example_huge_map.entries.length = 2 ^ 32 - 1 :=
  example_range_map_length (2 ^ 32 - 1)

theorem example_huge_map_wf : example_huge_map.WF :=
  example_range_map_wf (2 ^ 32 - 1)

theorem example_huge_map_absent (v : Nat) : (2 ^ 32 - 1, v) ∉ example_huge_map.entries :=
  example_range_map_absent (2 ^ 32 - 1) v

theorem example_huge_set_length : example_huge_set.items.length = 2 ^ 32 - 1 :=
  example_range_set_length (2 ^ 32 - 1)

theorem example_huge_set_wf : example_huge_set.WF :=
  example_range_set_wf (2 ^ 32 - 1)

theorem example_huge_set_absent : 2 ^ 32 - 1 ∉ example_huge_set.items :=
  example_range_set_absent (2 ^ 32 - 1)

theorem mapped_at_length_of_absent {K V A : Type} [LinearOrder K] (cfg : Config) (T : CppType)
    (ctors : Constructors A V) (m : StdMap K V A) (k : K) (b : Bool)
    (hT : use_map_allocator_for_values cfg T = some b) (habs : ∀ v, (k, v) ∉ m.entries) :
    ∃ v m', mapped_at cfg T ctors m k = some (v, m')
      ∧ m'.entries.length = m.entries.length + 1 := by
  obtain ⟨v, hv⟩ := make_value_isSome ctors m hT
  have habs' : ∀ e ∈ m.entries, e.1 ≠ (k, v).1 := by
    rintro ⟨k', v'⟩ he heq
    simp only at heq
    subst heq
    exact habs v' he
  obtain ⟨hperm, -, -⟩ := entries_insert_absent (k, v) m.entries habs'
  refine ⟨(m.insert (k, v)).2.1.2, (m.insert (k, v)).1, by simp [mapped_at, hv], ?_⟩
  simpa using hperm.length_eq

theorem set_insert_length_of_absent {T A : Type} [LinearOrder T] (s : StdSet T A) (x : T)
    (habs : x ∉ s.items) : (set_insert s x).items.length = s.items.length + 1 := by
  simpa using (ordered_insert_perm x s.items habs).length_eq

/-- C8, as stated, fails: on a map of `2 ^ 32 - 1` entries, whose
`container_size` is `2 ^ 32 - 1`, the mutable `mapped_at` of the absent key
`2 ^ 32 - 1` leaves a map whose `container_size` is `0`, not one more. -/
theorem mapped_at_absent_counterexample :
    example_huge_map.WF
    ∧ (∀ v, (2 ^ 32 - 1, v) ∉ example_huge_map.entries)
    ∧ container_size example_huge_map = 2 ^ 32 - 1
    ∧ ∃ v m', mapped_at ⟨false⟩ example_map_of_int example_ctors example_huge_map (2 ^ 32 - 1)
          = some (v, m')
        ∧ container_size m' = 0
        ∧ container_size m' ≠ container_size example_huge_map + 1 := by
  have hsize : container_size example_huge_map = 2 ^ 32 - 1 := by
    show to_uint32 example_huge_map.entries.length = 2 ^ 32 - 1
    rw [example_huge_map_length]
    norm_num [to_uint32]
  obtain ⟨v, m', hcall, hlen⟩ := mapped_at_length_of_absent ⟨false⟩ example_map_of_int
    example_ctors example_huge_map (2 ^ 32 - 1) false (by decide) example_huge_map_absent
  have hsize' : container_size m' = 0 := by
    show to_uint32 m'.entries.length = 0
    rw [hlen, example_huge_map_length]
    norm_num [to_uint32]
  refine ⟨example_huge_map_wf, example_huge_map_absent, hsize, v, m', hcall, hsize', ?_⟩
  rw [hsize', hsize]
  norm_num

/-- C11, as stated, fails: on a set of `2 ^ 32 - 1` items, whose
`container_size` is `2 ^ 32 - 1`, `set_insert` of the absent item `2 ^ 32 - 1`
yields a set whose `container_size` is `0`, not one more. -/
theorem set_insert_absent_counterexample :
    example_huge_set.WF
    ∧ 2 ^ 32 - 1 ∉ example_huge_set.items
    ∧ container_size example_huge_set = 2 ^ 32 - 1
    ∧ container_size (set_insert example_huge_set (2 ^ 32 - 1)) = 0
    ∧ container_size (set_insert example_huge_set (2 ^ 32 - 1))
        ≠ container_size example_huge_set + 1 := by
  have hsize : container_size example_huge_set = 2 ^ 32 - 1 := by
    show to_uint32 example_huge_set.items.length = 2 ^ 32 - 1
    rw [example_huge_set_length]
    norm_num [to_uint32]
  have hsize' : container_size (set_insert example_huge_set (2 ^ 32 - 1)) = 0 := by
    show to_uint32 (set_insert example_huge_set (2 ^ 32 - 1)).items.length = 0
    rw [set_insert_length_of_absent _ _ example_huge_set_absent, example_huge_set_length]
    norm_num [to_uint32]
  refine ⟨example_huge_set_wf, example_huge_set_absent, hsize, hsize', ?_⟩
  rw [hsize', hsize]
  norm_num

end bond
